import Mathlib

/-!
Verification of the bulk file-import subsystem of the cooperalivros-pelotas
library-management backend (`BookFileProcessor` / `UserFileProcessor` in
`books/utils/file_processors.py` and `users/utils/file_processors.py`),
together with the `Book.reserve_copy` / `Book.return_copy` operations of
`books/models.py`.

The Python code is shallowly embedded: the persisted store is an explicit
list of records threaded through each operation, uploaded files are strings
(text variant) or tables of cells (tabular variant, modelling the pandas
DataFrame obtained from a spreadsheet), and Python string/int primitives are
modelled by executable Lean functions on character lists.
-/

set_option autoImplicit false

namespace CoopLivros

/-! ### Python string primitives -/

/-- Python `str.strip()` on a character list: drop whitespace from both ends. -/
def pyStripChars (cs : List Char) : List Char :=
  ((cs.dropWhile Char.isWhitespace).reverse.dropWhile Char.isWhitespace).reverse

/-- Python `s.strip()`. -/
def pyStrip (s : String) : String :=
  String.mk (pyStripChars s.data)

/-- Python `str.split(sep)` on a character list with a one-character separator:
splits on every occurrence, keeping empty pieces (so the result is never
empty), exactly like Python `split` with an explicit separator. -/
def pySplitChars (sep : Char) : List Char → List (List Char)
  | [] => [[]]
  | c :: cs =>
    if c = sep then [] :: pySplitChars sep cs
    else
      match pySplitChars sep cs with
      | [] => [[c]]
      | g :: gs => (c :: g) :: gs

/-- Python `s.split(sep)` for a one-character separator. -/
def pySplit (sep : Char) (s : String) : List String :=
  (pySplitChars sep s.data).map String.mk

/-- Python `s.lower()` (ASCII case folding suffices for this repository). -/
def pyLower (s : String) : String :=
  String.mk (s.data.map Char.toLower)

/-- Digits of a decimal literal to a natural number, `none` if any
character is not a digit or the list is empty. -/
def pyDigits : List Char → Option Nat
  | [] => none
  | [c] => if c.isDigit then some (c.toNat - 48) else none
  | c :: cs =>
    if c.isDigit then
      match pyDigits cs with
      | some n => some ((c.toNat - 48) * 10 ^ cs.length + n)
      | none => none
    else none

/-- Python `int(s)` on a string: strip whitespace, optional sign, decimal
digits; `none` models the `ValueError` raised on anything else. -/
def pyParseInt (s : String) : Option Int :=
  match pyStripChars s.data with
  | '-' :: cs => (pyDigits cs).map (fun n => -(n : Int))
  | '+' :: cs => (pyDigits cs).map (fun n => (n : Int))
  | cs => (pyDigits cs).map (fun n => (n : Int))

/-! ### Tabular cells (pandas values) -/

/-- A value held in one cell of a parsed spreadsheet: missing (`NaN`),
a string, a number (spreadsheet numerics, embedded as integers), or a
boolean. -/
inductive Cell where
  | na : Cell
  | str (s : String) : Cell
  | int (n : Int) : Cell
  | bool (b : Bool) : Cell
  deriving DecidableEq, Repr

/-- Pandas `pd.isna` on a cell. -/
def Cell.isna : Cell → Bool
  | .na => true
  | _ => false

/-- Python `str(value)`: `NaN` renders as the literal string `"nan"`. -/
def Cell.pyStr : Cell → String
  | .na => "nan"
  | .str s => s
  | .int n => toString n
  | .bool b => if b then "True" else "False"

/-- Python `int(value)`: `none` models the `ValueError` on `NaN` or on a
non-numeric string. -/
def Cell.pyInt : Cell → Option Int
  | .na => none
  | .str s => pyParseInt s
  | .int n => some n
  | .bool b => some (if b then 1 else 0)

/-- Python `bool(value)` on a non-missing cell. -/
def Cell.pyBool : Cell → Bool
  | .na => true
  | .str s => s ≠ ""
  | .int n => n ≠ 0
  | .bool b => b

/-- A parsed spreadsheet: named columns and rows of cells aligned with the
column list (`pd.read_excel` result). -/
structure DataFrame where
  columns : List String
  rows : List (List Cell)
  deriving DecidableEq, Repr

/-- Lookup `row[name]`: the cell under the given column name (columns are assumed
validated, so a missing name — pandas `KeyError` — is modelled as `NaN`,
a case that cannot be reached after column validation). -/
def cellAt : List String → List Cell → String → Cell
  | c :: cs, v :: vs, name => if c = name then v else cellAt cs vs name
  | _, _, _ => Cell.na

/-! ### Data model -/

/-- Model of `books.models.Book`: the fields touched by the import subsystem and the
loan operations. Quantities are Python ints (the database constrains them
to be non-negative, which is stated as a hypothesis where relevant). -/
structure Book where
  title : String
  author : String
  isbn : String
  publisher : String
  publication_year : Option Int
  category : String
  quantity : Int
  available_quantity : Int
  deriving DecidableEq, Repr

/-- Model of `users.models.LibraryUser`: the fields touched by the import
subsystem. -/
structure LibraryUser where
  full_name : String
  email : String
  phone : String
  address : String
  registration_number : String
  is_active : Bool
  deriving DecidableEq, Repr

/-- The dict returned by every processor entry point:
`{'success': …, 'created': …, 'errors': …}`. -/
structure ImportOutcome where
  success : Bool
  created : Nat
  errors : List String
  deriving DecidableEq, Repr

/-- Running state of one import session: the persisted store plus the
`created_count` and `errors` accumulators. -/
structure ImportState (α : Type) where
  db : List α
  created : Nat
  errors : List String
  deriving DecidableEq, Repr

/-- Package the accumulators as the returned outcome
(`success = created_count > 0`). -/
def ImportState.finish {α : Type} (st : ImportState α) : ImportOutcome × List α :=
  ({ success := st.created > 0, created := st.created, errors := st.errors }, st.db)

/-- The enumerated `for` loop shared by all four processors: apply the
row handler to each row in order, threading the state and counting the
row index up from `idx`. -/
def importLoop {α ρ : Type} (step : ImportState α → Nat → ρ → ImportState α)
    (idx : Nat) : List ρ → ImportState α → ImportState α
  | [], st => st
  | r :: rest, st => importLoop step (idx + 1) rest (step st idx r)

/-! ### BookFileProcessor, text variant -/

/-- The `expected_fields` list of `BookFileProcessor.process_txt_file`. -/
def bookExpectedFields : List String :=
  ["title", "author", "isbn", "publisher", "publication_year", "category", "quantity"]

/-- The `data = {...}` block of `BookFileProcessor.process_txt_file`
(decode and field coercion), independent of the store and of the line
number; `none` models the `ValueError` raised when `publication_year`
(if non-empty) or `quantity` is not an int literal. Only applied to lines
whose field count has already been validated to be 7. -/
def bookTxtParse (line : String) : Option Book :=
  let fields := pySplit '|' (pyStrip line)
  let yearStr := pyStrip (fields.getD 4 "")
  let yearRes : Option (Option Int) :=
    if yearStr = "" then some none else (pyParseInt yearStr).map some
  match yearRes, pyParseInt (pyStrip (fields.getD 6 "")) with
  | some year, some qty =>
    some { title := pyStrip (fields.getD 0 "")
           author := pyStrip (fields.getD 1 "")
           isbn := pyStrip (fields.getD 2 "")
           publisher := pyStrip (fields.getD 3 "")
           publication_year := year
           category := pyStrip (fields.getD 5 "")
           quantity := qty
           available_quantity := qty }
  | _, _ => none

/-- One iteration of the row loop of `BookFileProcessor.process_txt_file`:
line `idx` (1-based within the stripped file, header = line 1) is skipped
when blank, errors on a wrong field count, on an unparseable
`publication_year` or `quantity` (Python `ValueError`, whose message text
is abbreviated here), or on an already-persisted ISBN, and otherwise
creates the book. -/
def bookTxtStep (st : ImportState Book) (idx : Nat) (line : String) :
    ImportState Book :=
  if pyStrip line = "" then st
  else
    let m := (pySplit '|' (pyStrip line)).length
    if m ≠ 7 then
      { st with errors := st.errors ++ [s!"Line {idx}: Expected 7 fields, got {m}"] }
    else
      match bookTxtParse line with
      | none =>
        { st with errors := st.errors ++ [s!"Line {idx}: invalid literal for int"] }
      | some b =>
        let isbn := b.isbn
        if st.db.any (fun x => x.isbn == isbn) then
          { st with errors := st.errors ++ [s!"Line {idx}: Book with ISBN {isbn} already exists"] }
        else
          { st with db := st.db ++ [b], created := st.created + 1 }

/-- The row loop of `BookFileProcessor.process_txt_file`
(`for idx, line in enumerate(lines[1:], start=2)`). -/
def bookTxtLoop : Nat → List String → ImportState Book → ImportState Book :=
  importLoop bookTxtStep

/-- Model of `BookFileProcessor.process_txt_file`, acting on the decoded file
content and the persisted book store. -/
def bookProcessTxt (content : String) (db : List Book) :
    ImportOutcome × List Book :=
  let lines := pySplit '\n' (pyStrip content)
  if lines.length < 2 then
    ({ success := false, created := 0,
       errors := ["File must contain at least a header and one data row"] }, db)
  else
    let header := pySplit '|' (pyStrip (lines.getD 0 ""))
    if header ≠ bookExpectedFields then
      let expectedStr := String.intercalate "|" bookExpectedFields
      ({ success := false, created := 0,
         errors := [s!"Invalid header. Expected: {expectedStr}"] }, db)
    else
      (bookTxtLoop 2 lines.tail { db := db, created := 0, errors := [] }).finish

/-! ### BookFileProcessor, tabular variant -/

/-- The `expected_columns` list of `BookFileProcessor.process_excel_file`
(identical to the text variant's field list). -/
def bookExpectedColumns : List String := bookExpectedFields

/-- The `data = {...}` block of `BookFileProcessor.process_excel_file`
(field coercion) on a non-skipped row: `none` models the `ValueError`
raised when `publication_year` (if present) or `quantity` fails int
coercion. A missing `author` is stringified to `"nan"`, while missing
`publisher` and `category` default to the empty string. -/
def bookExcelParse (cols : List String) (row : List Cell) : Option Book :=
  let yearCell := cellAt cols row "publication_year"
  let yearRes : Option (Option Int) :=
    if yearCell.isna then some none else yearCell.pyInt.map some
  match yearRes, (cellAt cols row "quantity").pyInt with
  | some year, some qty =>
    some { title := pyStrip (cellAt cols row "title").pyStr
           author := pyStrip (cellAt cols row "author").pyStr
           isbn := pyStrip (cellAt cols row "isbn").pyStr
           publisher :=
             if (cellAt cols row "publisher").isna then ""
             else pyStrip (cellAt cols row "publisher").pyStr
           publication_year := year
           category :=
             if (cellAt cols row "category").isna then ""
             else pyStrip (cellAt cols row "category").pyStr
           quantity := qty
           available_quantity := qty }
  | _, _ => none

/-- One iteration of the row loop of
`BookFileProcessor.process_excel_file`: row `idx` (0-based, reported as
`idx + 2`) is skipped when `title` or `isbn` is missing, errors on an
unparseable `publication_year` or `quantity` or an already-persisted ISBN,
and otherwise creates the book. -/
def bookExcelStep (cols : List String) (st : ImportState Book) (idx : Nat)
    (row : List Cell) : ImportState Book :=
  if (cellAt cols row "title").isna || (cellAt cols row "isbn").isna then st
  else
    let n := idx + 2
    match bookExcelParse cols row with
    | none =>
      { st with errors := st.errors ++ [s!"Row {n}: invalid literal for int"] }
    | some b =>
      let isbn := b.isbn
      if st.db.any (fun x => x.isbn == isbn) then
        { st with errors := st.errors ++ [s!"Row {n}: Book with ISBN {isbn} already exists"] }
      else
        { st with db := st.db ++ [b], created := st.created + 1 }

/-- The row loop of `BookFileProcessor.process_excel_file`
(`for idx, row in df.iterrows()`). -/
def bookExcelLoop (cols : List String) :
    Nat → List (List Cell) → ImportState Book → ImportState Book :=
  importLoop (bookExcelStep cols)

/-- Model of `BookFileProcessor.process_excel_file`, acting on the parsed
spreadsheet (`none` models a file `pd.read_excel` fails on) and the
persisted book store. -/
def bookProcessExcel (input : Option DataFrame) (db : List Book) :
    ImportOutcome × List Book :=
  match input with
  | none =>
    ({ success := false, created := 0, errors := ["Error reading Excel file"] }, db)
  | some df =>
    let cols := df.columns.map (fun c => pyStrip (pyLower c))
    let missing := bookExpectedColumns.filter (fun c => ¬ cols.contains c)
    if missing ≠ [] then
      let missingStr := String.intercalate ", " missing
      ({ success := false, created := 0,
         errors := [s!"Missing required columns: {missingStr}"] }, db)
    else
      (bookExcelLoop cols 0 df.rows { db := db, created := 0, errors := [] }).finish

/-- Model of `BookFileProcessor.process_file`: dispatch on the declared file type.
An uploaded file carries both possible decodings of its raw bytes. -/
structure UploadedFile where
  txtContent : String
  excelData : Option DataFrame

/-- Model of `BookFileProcessor.process_file`. -/
def bookProcessFile (file : UploadedFile) (fileType : String) (db : List Book) :
    ImportOutcome × List Book :=
  if fileType = "txt" then bookProcessTxt file.txtContent db
  else if fileType = "excel" then bookProcessExcel file.excelData db
  else
    ({ success := false, created := 0,
       errors := [s!"Unsupported file type: {fileType}"] }, db)

/-! ### UserFileProcessor, text variant -/

/-- The `expected_fields` list of `UserFileProcessor.process_txt_file`. -/
def userExpectedFields : List String :=
  ["full_name", "email", "phone", "address", "registration_number", "is_active"]

/-- The `data = {...}` block of `UserFileProcessor.process_txt_file`
(decode), independent of the store and of the line number; total, since
no field coercion of this variant can raise. Only applied to lines whose
field count has already been validated to be 6. -/
def userTxtRowData (line : String) : LibraryUser :=
  let fields := pySplit '|' (pyStrip line)
  { full_name := pyStrip (fields.getD 0 "")
    email := pyStrip (fields.getD 1 "")
    phone := pyStrip (fields.getD 2 "")
    address := pyStrip (fields.getD 3 "")
    registration_number := pyStrip (fields.getD 4 "")
    is_active := ["true", "1", "yes"].contains (pyLower (pyStrip (fields.getD 5 ""))) }

/-- One iteration of the row loop of `UserFileProcessor.process_txt_file`:
line `idx` is skipped when blank, errors on a wrong field count, on an
already-persisted registration number, or — only when the registration
number is fresh — on an already-persisted email, and otherwise creates the
user (`is_active` is true when the field lowercases to `true`, `1` or
`yes`). No field coercion of this variant can raise `ValueError`. -/
def userTxtStep (st : ImportState LibraryUser) (idx : Nat) (line : String) :
    ImportState LibraryUser :=
  if pyStrip line = "" then st
  else
    let m := (pySplit '|' (pyStrip line)).length
    if m ≠ 6 then
      { st with errors := st.errors ++ [s!"Line {idx}: Expected 6 fields, got {m}"] }
    else
      let u := userTxtRowData line
      let reg := u.registration_number
      let email := u.email
      if st.db.any (fun x => x.registration_number == reg) then
        { st with errors := st.errors ++ [s!"Line {idx}: User with registration {reg} already exists"] }
      else if st.db.any (fun x => x.email == email) then
        { st with errors := st.errors ++ [s!"Line {idx}: User with email {email} already exists"] }
      else
        { st with db := st.db ++ [u], created := st.created + 1 }

/-- The row loop of `UserFileProcessor.process_txt_file`. -/
def userTxtLoop : Nat → List String → ImportState LibraryUser → ImportState LibraryUser :=
  importLoop userTxtStep

/-- Model of `UserFileProcessor.process_txt_file`. -/
def userProcessTxt (content : String) (db : List LibraryUser) :
    ImportOutcome × List LibraryUser :=
  let lines := pySplit '\n' (pyStrip content)
  if lines.length < 2 then
    ({ success := false, created := 0,
       errors := ["File must contain at least a header and one data row"] }, db)
  else
    let header := pySplit '|' (pyStrip (lines.getD 0 ""))
    if header ≠ userExpectedFields then
      let expectedStr := String.intercalate "|" userExpectedFields
      ({ success := false, created := 0,
         errors := [s!"Invalid header. Expected: {expectedStr}"] }, db)
    else
      (userTxtLoop 2 lines.tail { db := db, created := 0, errors := [] }).finish

/-! ### UserFileProcessor, tabular variant -/

/-- The `expected_columns` list of `UserFileProcessor.process_excel_file`. -/
def userExpectedColumns : List String := userExpectedFields

/-- The `data = {...}` block of `UserFileProcessor.process_excel_file`
(field coercion) on a non-skipped row; total, since no coercion of this
variant can raise. A missing `email` is stringified to `"nan"`, missing
`phone` and `address` default to the empty string, and a missing
`is_active` defaults to true. -/
def userExcelRowData (cols : List String) (row : List Cell) : LibraryUser :=
  { full_name := pyStrip (cellAt cols row "full_name").pyStr
    email := pyStrip (cellAt cols row "email").pyStr
    phone :=
      if (cellAt cols row "phone").isna then ""
      else pyStrip (cellAt cols row "phone").pyStr
    address :=
      if (cellAt cols row "address").isna then ""
      else pyStrip (cellAt cols row "address").pyStr
    registration_number := pyStrip (cellAt cols row "registration_number").pyStr
    is_active :=
      if (cellAt cols row "is_active").isna then true
      else (cellAt cols row "is_active").pyBool }

/-- One iteration of the row loop of
`UserFileProcessor.process_excel_file`: row `idx` (reported as `idx + 2`)
is skipped when `full_name` or `registration_number` is missing, errors on
an already-persisted registration number, or, failing that, email, and
otherwise creates the user. -/
def userExcelStep (cols : List String) (st : ImportState LibraryUser) (idx : Nat)
    (row : List Cell) : ImportState LibraryUser :=
  if (cellAt cols row "full_name").isna || (cellAt cols row "registration_number").isna then st
  else
    let n := idx + 2
    let u := userExcelRowData cols row
    let reg := u.registration_number
    let email := u.email
    if st.db.any (fun x => x.registration_number == reg) then
      { st with errors := st.errors ++ [s!"Row {n}: User with registration {reg} already exists"] }
    else if st.db.any (fun x => x.email == email) then
      { st with errors := st.errors ++ [s!"Row {n}: User with email {email} already exists"] }
    else
      { st with db := st.db ++ [u], created := st.created + 1 }

/-- The row loop of `UserFileProcessor.process_excel_file`. -/
def userExcelLoop (cols : List String) :
    Nat → List (List Cell) → ImportState LibraryUser → ImportState LibraryUser :=
  importLoop (userExcelStep cols)

/-- Model of `UserFileProcessor.process_excel_file`. -/
def userProcessExcel (input : Option DataFrame) (db : List LibraryUser) :
    ImportOutcome × List LibraryUser :=
  match input with
  | none =>
    ({ success := false, created := 0, errors := ["Error reading Excel file"] }, db)
  | some df =>
    let cols := df.columns.map (fun c => pyStrip (pyLower c))
    let missing := userExpectedColumns.filter (fun c => ¬ cols.contains c)
    if missing ≠ [] then
      let missingStr := String.intercalate ", " missing
      ({ success := false, created := 0,
         errors := [s!"Missing required columns: {missingStr}"] }, db)
    else
      (userExcelLoop cols 0 df.rows { db := db, created := 0, errors := [] }).finish

/-- Model of `UserFileProcessor.process_file`. -/
def userProcessFile (file : UploadedFile) (fileType : String) (db : List LibraryUser) :
    ImportOutcome × List LibraryUser :=
  if fileType = "txt" then userProcessTxt file.txtContent db
  else if fileType = "excel" then userProcessExcel file.excelData db
  else
    ({ success := false, created := 0,
       errors := [s!"Unsupported file type: {fileType}"] }, db)

/-! ### Book loan operations (`books/models.py`) -/

/-- Model of `Book.reserve_copy`: take one copy when one is available, returning
whether the reservation succeeded together with the updated record. -/
def Book.reserve_copy (b : Book) : Bool × Book :=
  if b.available_quantity > 0 then
    (true, { b with available_quantity := b.available_quantity - 1 })
  else (false, b)

/-- Model of `Book.return_copy`: give one copy back when not all copies are in,
returning whether the return was accepted together with the updated
record. -/
def Book.return_copy (b : Book) : Bool × Book :=
  if b.available_quantity < b.quantity then
    (true, { b with available_quantity := b.available_quantity + 1 })
  else (false, b)

/-- A loan-lifecycle event touching one book. -/
inductive LoanOp where
  | reserve : LoanOp
  | ret : LoanOp
  deriving DecidableEq, Repr

/-- Apply one loan event to a book, keeping only the resulting record. -/
def applyLoanOp (b : Book) : LoanOp → Book
  | .reserve => b.reserve_copy.2
  | .ret => b.return_copy.2

/-- Apply a sequence of loan events to a book. -/
def applyLoanOps (b : Book) : List LoanOp → Book
  | [] => b
  | op :: ops => applyLoanOps (applyLoanOp b op) ops

/-! ### Spec-side row classification

A second, independent reading of the spec sentence behind claim C1: each
candidate row is skipped (blank line / missing primary field), fails
(wrong field count, failed coercion, or uniqueness conflict against the
store as accumulated so far), or passes. These definitions follow the
spec's words and are compared with the processors above. -/

/-- Classification of one candidate row per the spec's words. -/
inductive RowClass (κ : Type) where
  | skipped : RowClass κ
  | failed : RowClass κ
  | passed (key : κ) : RowClass κ
  deriving DecidableEq

/-- Count `(passed, failed)` rows, threading the natural-key state through
the rows the way the spec describes: a passing row's key immediately joins
the constraint state seen by later rows. -/
def specCounts {α σ κ : Type} (f : σ → α → RowClass κ) (upd : σ → κ → σ) :
    σ → List α → Nat × Nat
  | _, [] => (0, 0)
  | s, r :: rest =>
    match f s r with
    | .skipped => specCounts f upd s rest
    | .failed =>
      let p := specCounts f upd s rest
      (p.1, p.2 + 1)
    | .passed k =>
      let p := specCounts f upd (upd s k) rest
      (p.1 + 1, p.2)

/-- Spec-side classification of a Book text row against a list of taken
ISBNs: blank is skipped; wrong field count, failed coercion of
`publication_year` (when non-empty) or `quantity`, or a taken ISBN fails;
otherwise the row passes with its ISBN. -/
def specBookTxtClass (keys : List String) (line : String) : RowClass String :=
  if pyStrip line = "" then .skipped
  else
    let fields := pySplit '|' (pyStrip line)
    if fields.length ≠ 7 then .failed
    else
      let yearStr := pyStrip (fields.getD 4 "")
      let isbn := pyStrip (fields.getD 2 "")
      if (yearStr = "" || (pyParseInt yearStr).isSome) &&
          (pyParseInt (pyStrip (fields.getD 6 ""))).isSome && !keys.contains isbn then
        .passed isbn
      else .failed

/-- Spec-side classification of a User text row against lists of taken
registration numbers and emails. -/
def specUserTxtClass (keys : List String × List String) (line : String) :
    RowClass (String × String) :=
  if pyStrip line = "" then .skipped
  else
    let fields := pySplit '|' (pyStrip line)
    if fields.length ≠ 6 then .failed
    else
      let reg := pyStrip (fields.getD 4 "")
      let email := pyStrip (fields.getD 1 "")
      if !keys.1.contains reg && !keys.2.contains email then .passed (reg, email)
      else .failed

/-- Spec-side classification of a Book tabular row: a missing primary
field (`title` or `isbn`) is skipped; failed coercion or a taken ISBN
fails; otherwise the row passes with its ISBN. -/
def specBookExcelClass (cols : List String) (keys : List String) (row : List Cell) :
    RowClass String :=
  if (cellAt cols row "title").isna || (cellAt cols row "isbn").isna then .skipped
  else
    let yearCell := cellAt cols row "publication_year"
    let isbn := pyStrip (cellAt cols row "isbn").pyStr
    if ((yearCell.isna : Bool) || yearCell.pyInt.isSome) &&
        (cellAt cols row "quantity").pyInt.isSome && !keys.contains isbn then
      .passed isbn
    else .failed

/-- Spec-side classification of a User tabular row. -/
def specUserExcelClass (cols : List String) (keys : List String × List String)
    (row : List Cell) : RowClass (String × String) :=
  if (cellAt cols row "full_name").isna || (cellAt cols row "registration_number").isna then
    .skipped
  else
    let reg := pyStrip (cellAt cols row "registration_number").pyStr
    let email := pyStrip (cellAt cols row "email").pyStr
    if !keys.1.contains reg && !keys.2.contains email then .passed (reg, email)
    else .failed

/-- Key-state update for the one-key (Book) classifications. -/
def pushKey (keys : List String) (k : String) : List String := k :: keys

/-- Key-state update for the two-key (User) classifications. -/
def pushKeys (keys : List String × List String) (k : String × String) :
    List String × List String := (k.1 :: keys.1, k.2 :: keys.2)

/-! ### Natural-key uniqueness of the stores -/

/-- At most one persisted book per ISBN. -/
def isbnUnique (db : List Book) : Prop :=
  db.Pairwise (fun a b => a.isbn ≠ b.isbn)

/-- At most one persisted user per registration number, and at most one
per email. -/
def usersUnique (db : List LibraryUser) : Prop :=
  db.Pairwise (fun a b => a.registration_number ≠ b.registration_number) ∧
    db.Pairwise (fun a b => a.email ≠ b.email)

/-! ## Helper lemmas -/

/-- Every iteration of the Book text loop either skips a blank line,
appends exactly one error, or commits exactly one book whose ISBN is
fresh. -/
lemma bookTxtStep_cases (st : ImportState Book) (idx : Nat) (line : String) :
    (bookTxtStep st idx line = st ∧ pyStrip line = "") ∨
    (∃ e, bookTxtStep st idx line = { st with errors := st.errors ++ [e] }) ∨
    (∃ b, bookTxtStep st idx line =
        { st with db := st.db ++ [b], created := st.created + 1 } ∧
      st.db.any (fun x => x.isbn == b.isbn) = false ∧
      pyStrip line ≠ "" ∧ (pySplit '|' (pyStrip line)).length = 7 ∧
      bookTxtParse line = some b) := by
  by_cases hb : pyStrip line = ""
  · exact Or.inl ⟨by simp [bookTxtStep, hb], hb⟩
  · by_cases hm : (pySplit '|' (pyStrip line)).length ≠ 7
    · refine Or.inr (Or.inl ?_)
      unfold bookTxtStep
      rw [if_neg hb]
      simp only []
      rw [if_pos hm]
      exact ⟨_, rfl⟩
    · rcases Option.eq_none_or_eq_some (bookTxtParse line) with hp | ⟨b, hp⟩
      · refine Or.inr (Or.inl ?_)
        unfold bookTxtStep
        rw [if_neg hb]
        simp only []
        rw [if_neg hm, hp]
        exact ⟨_, rfl⟩
      · by_cases hd : st.db.any (fun x => x.isbn == b.isbn) = true
        · refine Or.inr (Or.inl ?_)
          unfold bookTxtStep
          rw [if_neg hb]
          simp only []
          rw [if_neg hm, hp]
          simp only []
          rw [if_pos hd]
          exact ⟨_, rfl⟩
        · refine Or.inr (Or.inr ⟨b, ?_, by simpa using hd, hb, not_not.mp hm, hp⟩)
          unfold bookTxtStep
          rw [if_neg hb]
          simp only []
          rw [if_neg hm, hp]
          simp only []
          rw [if_neg hd]

/-- Every iteration of the User text loop either skips a blank line,
appends exactly one error, or commits exactly one user whose registration
number and email are both fresh. -/
lemma userTxtStep_cases (st : ImportState LibraryUser) (idx : Nat) (line : String) :
    (userTxtStep st idx line = st ∧ pyStrip line = "") ∨
    (∃ e, userTxtStep st idx line = { st with errors := st.errors ++ [e] }) ∨
    (userTxtStep st idx line =
        { st with db := st.db ++ [userTxtRowData line], created := st.created + 1 } ∧
      st.db.any
          (fun x => x.registration_number == (userTxtRowData line).registration_number)
        = false ∧
      st.db.any (fun x => x.email == (userTxtRowData line).email) = false ∧
      pyStrip line ≠ "" ∧ (pySplit '|' (pyStrip line)).length = 6) := by
  by_cases hb : pyStrip line = ""
  · exact Or.inl ⟨by simp [userTxtStep, hb], hb⟩
  · by_cases hm : (pySplit '|' (pyStrip line)).length ≠ 6
    · refine Or.inr (Or.inl ?_)
      unfold userTxtStep
      rw [if_neg hb]
      simp only []
      rw [if_pos hm]
      exact ⟨_, rfl⟩
    · by_cases hr : st.db.any
        (fun x => x.registration_number == (userTxtRowData line).registration_number) = true
      · refine Or.inr (Or.inl ?_)
        unfold userTxtStep
        rw [if_neg hb]
        simp only []
        rw [if_neg hm, if_pos hr]
        exact ⟨_, rfl⟩
      · by_cases he : st.db.any (fun x => x.email == (userTxtRowData line).email) = true
        · refine Or.inr (Or.inl ?_)
          unfold userTxtStep
          rw [if_neg hb]
          simp only []
          rw [if_neg hm, if_neg hr, if_pos he]
          exact ⟨_, rfl⟩
        · refine Or.inr (Or.inr ⟨?_, by simpa using hr, by simpa using he, hb, not_not.mp hm⟩)
          unfold userTxtStep
          rw [if_neg hb]
          simp only []
          rw [if_neg hm, if_neg hr, if_neg he]

/-- Every iteration of the Book tabular loop either skips a row with a
missing primary field, appends exactly one error, or commits exactly one
book whose ISBN is fresh. -/
lemma bookExcelStep_cases (cols : List String) (st : ImportState Book) (idx : Nat)
    (row : List Cell) :
    (bookExcelStep cols st idx row = st ∧
      ((cellAt cols row "title").isna || (cellAt cols row "isbn").isna) = true) ∨
    (∃ e, bookExcelStep cols st idx row = { st with errors := st.errors ++ [e] }) ∨
    (∃ b, bookExcelStep cols st idx row =
        { st with db := st.db ++ [b], created := st.created + 1 } ∧
      st.db.any (fun x => x.isbn == b.isbn) = false ∧
      ((cellAt cols row "title").isna || (cellAt cols row "isbn").isna) = false ∧
      bookExcelParse cols row = some b) := by
  by_cases hs : ((cellAt cols row "title").isna || (cellAt cols row "isbn").isna) = true
  · exact Or.inl ⟨by simp [bookExcelStep, hs], hs⟩
  · rcases Option.eq_none_or_eq_some (bookExcelParse cols row) with hp | ⟨b, hp⟩
    · refine Or.inr (Or.inl ?_)
      unfold bookExcelStep
      rw [if_neg hs]
      simp only []
      rw [hp]
      exact ⟨_, rfl⟩
    · by_cases hd : st.db.any (fun x => x.isbn == b.isbn) = true
      · refine Or.inr (Or.inl ?_)
        unfold bookExcelStep
        rw [if_neg hs]
        simp only []
        rw [hp]
        simp only []
        rw [if_pos hd]
        exact ⟨_, rfl⟩
      · refine Or.inr (Or.inr ⟨b, ?_, by simpa using hd, by simpa using hs, hp⟩)
        unfold bookExcelStep
        rw [if_neg hs]
        simp only []
        rw [hp]
        simp only []
        rw [if_neg hd]

/-- Every iteration of the User tabular loop either skips a row with a
missing primary field, appends exactly one error, or commits exactly one
user whose registration number and email are both fresh. -/
lemma userExcelStep_cases (cols : List String) (st : ImportState LibraryUser) (idx : Nat)
    (row : List Cell) :
    (userExcelStep cols st idx row = st ∧
      ((cellAt cols row "full_name").isna || (cellAt cols row "registration_number").isna)
        = true) ∨
    (∃ e, userExcelStep cols st idx row = { st with errors := st.errors ++ [e] }) ∨
    (userExcelStep cols st idx row =
        { st with db := st.db ++ [userExcelRowData cols row], created := st.created + 1 } ∧
      st.db.any
          (fun x =>
            x.registration_number == (userExcelRowData cols row).registration_number)
        = false ∧
      st.db.any (fun x => x.email == (userExcelRowData cols row).email) = false ∧
      ((cellAt cols row "full_name").isna || (cellAt cols row "registration_number").isna)
        = false) := by
  by_cases hs : ((cellAt cols row "full_name").isna ||
      (cellAt cols row "registration_number").isna) = true
  · exact Or.inl ⟨by simp [userExcelStep, hs], hs⟩
  · by_cases hr : st.db.any
        (fun x =>
          x.registration_number == (userExcelRowData cols row).registration_number) = true
    · refine Or.inr (Or.inl ?_)
      unfold userExcelStep
      rw [if_neg hs]
      simp only []
      rw [if_pos hr]
      exact ⟨_, rfl⟩
    · by_cases he : st.db.any
          (fun x => x.email == (userExcelRowData cols row).email) = true
      · refine Or.inr (Or.inl ?_)
        unfold userExcelStep
        rw [if_neg hs]
        simp only []
        rw [if_neg hr, if_pos he]
        exact ⟨_, rfl⟩
      · refine Or.inr
          (Or.inr ⟨?_, by simpa using hr, by simpa using he, by simpa using hs⟩)
        unfold userExcelStep
        rw [if_neg hs]
        simp only []
        rw [if_neg hr, if_neg he]

/-- A step function that never removes anything: the store and the error
list only ever grow by appending, and the created count never drops. -/
def StepGrows {α ρ : Type} (step : ImportState α → Nat → ρ → ImportState α) : Prop :=
  ∀ (st : ImportState α) (idx : Nat) (r : ρ),
    ∃ (l : List α) (es : List String),
      (step st idx r).db = st.db ++ l ∧
      (step st idx r).errors = st.errors ++ es ∧
      st.created ≤ (step st idx r).created

lemma importLoop_nil {α ρ : Type} (step : ImportState α → Nat → ρ → ImportState α)
    (idx : Nat) (st : ImportState α) : importLoop step idx [] st = st := rfl

lemma importLoop_cons {α ρ : Type} (step : ImportState α → Nat → ρ → ImportState α)
    (idx : Nat) (r : ρ) (rest : List ρ) (st : ImportState α) :
    importLoop step idx (r :: rest) st = importLoop step (idx + 1) rest (step st idx r) := rfl

/-- A growing step makes a growing loop. -/
lemma importLoop_grows {α ρ : Type} {step : ImportState α → Nat → ρ → ImportState α}
    (hstep : StepGrows step) :
    ∀ (rows : List ρ) (idx : Nat) (st : ImportState α),
      ∃ (l : List α) (es : List String),
        (importLoop step idx rows st).db = st.db ++ l ∧
        (importLoop step idx rows st).errors = st.errors ++ es ∧
        st.created ≤ (importLoop step idx rows st).created := by
  intro rows
  induction rows with
  | nil => exact fun idx st => ⟨[], [], by simp [importLoop_nil]⟩
  | cons r rest ih =>
    intro idx st
    obtain ⟨l1, es1, h1, h2, h3⟩ := hstep st idx r
    obtain ⟨l2, es2, g1, g2, g3⟩ := ih (idx + 1) (step st idx r)
    refine ⟨l1 ++ l2, es1 ++ es2, ?_, ?_, ?_⟩
    · rw [importLoop_cons, g1, h1, List.append_assoc]
    · rw [importLoop_cons, g2, h2, List.append_assoc]
    · rw [importLoop_cons]; omega

lemma bookTxtStep_grows : StepGrows bookTxtStep := by
  intro st idx r
  rcases bookTxtStep_cases st idx r with ⟨h, _⟩ | ⟨e, h⟩ | ⟨b, h, _⟩
  · exact ⟨[], [], by rw [h]; simp⟩
  · exact ⟨[], [e], by rw [h]; simp⟩
  · exact ⟨[b], [], by rw [h]; simp⟩

lemma userTxtStep_grows : StepGrows userTxtStep := by
  intro st idx r
  rcases userTxtStep_cases st idx r with ⟨h, _⟩ | ⟨e, h⟩ | ⟨h, _⟩
  · exact ⟨[], [], by rw [h]; simp⟩
  · exact ⟨[], [e], by rw [h]; simp⟩
  · exact ⟨[userTxtRowData r], [], by rw [h]; simp⟩

lemma bookExcelStep_grows (cols : List String) : StepGrows (bookExcelStep cols) := by
  intro st idx r
  rcases bookExcelStep_cases cols st idx r with ⟨h, _⟩ | ⟨e, h⟩ | ⟨b, h, _⟩
  · exact ⟨[], [], by rw [h]; simp⟩
  · exact ⟨[], [e], by rw [h]; simp⟩
  · exact ⟨[b], [], by rw [h]; simp⟩

lemma userExcelStep_grows (cols : List String) : StepGrows (userExcelStep cols) := by
  intro st idx r
  rcases userExcelStep_cases cols st idx r with ⟨h, _⟩ | ⟨e, h⟩ | ⟨h, _⟩
  · exact ⟨[], [], by rw [h]; simp⟩
  · exact ⟨[], [e], by rw [h]; simp⟩
  · exact ⟨[userExcelRowData cols r], [], by rw [h]; simp⟩

/-- Bounds preservation for one loan event. -/
lemma applyLoanOp_bounds (b : Book) (op : LoanOp)
    (h0 : 0 ≤ b.available_quantity) (h1 : b.available_quantity ≤ b.quantity) :
    0 ≤ (applyLoanOp b op).available_quantity ∧
      (applyLoanOp b op).available_quantity ≤ (applyLoanOp b op).quantity ∧
      (applyLoanOp b op).quantity = b.quantity := by
  cases op <;>
    simp only [applyLoanOp, Book.reserve_copy, Book.return_copy] <;>
    split_ifs <;> simp <;> omega

/-- Bounds preservation for a sequence of loan events. -/
lemma applyLoanOps_bounds : ∀ (ops : List LoanOp) (b : Book),
    0 ≤ b.available_quantity → b.available_quantity ≤ b.quantity →
    0 ≤ (applyLoanOps b ops).available_quantity ∧
      (applyLoanOps b ops).available_quantity ≤ (applyLoanOps b ops).quantity ∧
      (applyLoanOps b ops).quantity = b.quantity := by
  intro ops
  induction ops with
  | nil => exact fun b h0 h1 => ⟨h0, h1, rfl⟩
  | cons op rest ih =>
    intro b h0 h1
    obtain ⟨g0, g1, g2⟩ := applyLoanOp_bounds b op h0 h1
    obtain ⟨k0, k1, k2⟩ := ih (applyLoanOp b op) g0 (by omega)
    simp only [applyLoanOps]
    exact ⟨k0, k1, by omega⟩

/-! ## Claims -/

/-- C8: starting from `0 ≤ available_quantity ≤ quantity`, no sequence of
`reserve_copy` / `return_copy` events drives `available_quantity` outside
`[0, quantity]` (and `quantity` itself never changes); `reserve_copy`
succeeds, decrementing, exactly when `available_quantity > 0` and
otherwise changes nothing; `return_copy` succeeds, incrementing, exactly
when `available_quantity < quantity` and otherwise changes nothing. -/
theorem C8_loan_quantity_invariant (b : Book)
    (h0 : 0 ≤ b.available_quantity) (h1 : b.available_quantity ≤ b.quantity) :
    (∀ ops : List LoanOp,
      0 ≤ (applyLoanOps b ops).available_quantity ∧
      (applyLoanOps b ops).available_quantity ≤ (applyLoanOps b ops).quantity ∧
      (applyLoanOps b ops).quantity = b.quantity) ∧
    (b.reserve_copy.1 = true ↔ 0 < b.available_quantity) ∧
    (0 < b.available_quantity →
      b.reserve_copy = (true, { b with available_quantity := b.available_quantity - 1 })) ∧
    (¬ 0 < b.available_quantity → b.reserve_copy = (false, b)) ∧
    (b.return_copy.1 = true ↔ b.available_quantity < b.quantity) ∧
    (b.available_quantity < b.quantity →
      b.return_copy = (true, { b with available_quantity := b.available_quantity + 1 })) ∧
    (¬ b.available_quantity < b.quantity → b.return_copy = (false, b)) := by
  refine ⟨fun ops => applyLoanOps_bounds ops b h0 h1, ?_, ?_, ?_, ?_, ?_, ?_⟩ <;>
    simp only [Book.reserve_copy, Book.return_copy] <;>
    (try intro h) <;> split_ifs <;> simp_all

/-- C8 witness: a concrete book with 1 of 2 copies available, run through
reserve–reserve–return. -/
theorem C8_loan_quantity_invariant_check :
    (0 : Int) ≤ 1 ∧ (1 : Int) ≤ 2 ∧
    (applyLoanOps
        { title := "t", author := "a", isbn := "i", publisher := "",
          publication_year := none, category := "", quantity := 2,
          available_quantity := 1 }
        [LoanOp.reserve, LoanOp.reserve, LoanOp.ret]).available_quantity = 1 := by
  refine ⟨by decide, by decide, ?_⟩
  have h := (C8_loan_quantity_invariant
      { title := "t", author := "a", isbn := "i", publisher := "",
        publication_year := none, category := "", quantity := 2,
        available_quantity := 1 } (by decide) (by decide)).1
      [LoanOp.reserve, LoanOp.reserve, LoanOp.ret]
  decide

lemma finish_success_iff {α : Type} (st : ImportState α) :
    st.finish.1.success = true ↔ 0 < st.finish.1.created := by
  simp [ImportState.finish]

lemma bookProcessTxt_success_iff (c : String) (db : List Book) :
    (bookProcessTxt c db).1.success = true ↔ 0 < (bookProcessTxt c db).1.created := by
  unfold bookProcessTxt
  simp only []
  split_ifs <;> first | simp | exact finish_success_iff _

lemma userProcessTxt_success_iff (c : String) (db : List LibraryUser) :
    (userProcessTxt c db).1.success = true ↔ 0 < (userProcessTxt c db).1.created := by
  unfold userProcessTxt
  simp only []
  split_ifs <;> first | simp | exact finish_success_iff _

lemma bookProcessExcel_success_iff (input : Option DataFrame) (db : List Book) :
    (bookProcessExcel input db).1.success = true ↔
      0 < (bookProcessExcel input db).1.created := by
  unfold bookProcessExcel
  cases input with
  | none => simp
  | some df =>
    simp only []
    split_ifs <;> first | simp | exact finish_success_iff _

lemma userProcessExcel_success_iff (input : Option DataFrame) (db : List LibraryUser) :
    (userProcessExcel input db).1.success = true ↔
      0 < (userProcessExcel input db).1.created := by
  unfold userProcessExcel
  cases input with
  | none => simp
  | some df =>
    simp only []
    split_ifs <;> first | simp | exact finish_success_iff _

/-- C2: for every import invocation — Book or User, text or tabular, and
the unsupported-file-type rejection — the returned `success` flag is true
exactly when `created > 0`, independently of the error list. -/
theorem C2_success_iff_created_positive :
    ∀ (bf uf : UploadedFile) (t : String) (bdb : List Book) (udb : List LibraryUser),
      ((bookProcessFile bf t bdb).1.success = true ↔
        0 < (bookProcessFile bf t bdb).1.created) ∧
      ((userProcessFile uf t udb).1.success = true ↔
        0 < (userProcessFile uf t udb).1.created) := by
  intro bf uf t bdb udb
  constructor
  · unfold bookProcessFile
    split_ifs
    · exact bookProcessTxt_success_iff _ _
    · exact bookProcessExcel_success_iff _ _
    · simp
  · unfold userProcessFile
    split_ifs
    · exact userProcessTxt_success_iff _ _
    · exact userProcessExcel_success_iff _ _
    · simp

/-- C3: in the text variant, a header line differing from the expected
field sequence aborts the import of either entity kind with exactly one
`Invalid header` error naming the pipe-joined expected fields, zero
created rows, and an untouched store. -/
theorem C3_invalid_header_aborts (content : String) (bdb : List Book)
    (udb : List LibraryUser) :
    (2 ≤ (pySplit '\n' (pyStrip content)).length →
      pySplit '|' (pyStrip ((pySplit '\n' (pyStrip content)).getD 0 "")) ≠ bookExpectedFields →
      bookProcessTxt content bdb =
        ({ success := false, created := 0,
           errors :=
             ["Invalid header. Expected: title|author|isbn|publisher|publication_year|category|quantity"] },
          bdb)) ∧
    (2 ≤ (pySplit '\n' (pyStrip content)).length →
      pySplit '|' (pyStrip ((pySplit '\n' (pyStrip content)).getD 0 "")) ≠ userExpectedFields →
      userProcessTxt content udb =
        ({ success := false, created := 0,
           errors :=
             ["Invalid header. Expected: full_name|email|phone|address|registration_number|is_active"] },
          udb)) := by
  constructor
  · intro h1 h2
    unfold bookProcessTxt
    simp only []
    rw [if_neg (by omega), if_pos h2]
    simp only [Prod.mk.injEq]
    exact ⟨by decide, trivial⟩
  · intro h1 h2
    unfold userProcessTxt
    simp only []
    rw [if_neg (by omega), if_pos h2]
    simp only [Prod.mk.injEq]
    exact ⟨by decide, trivial⟩

/-- C3 witness: the concrete file `wrong|header|format` + one data line,
against empty stores. -/
theorem C3_invalid_header_aborts_check :
    2 ≤ (pySplit '\n' (pyStrip "wrong|header|format\nx|y|z")).length ∧
    pySplit '|' (pyStrip ((pySplit '\n' (pyStrip "wrong|header|format\nx|y|z")).getD 0 ""))
      ≠ bookExpectedFields ∧
    bookProcessTxt "wrong|header|format\nx|y|z" [] =
      ({ success := false, created := 0,
         errors :=
           ["Invalid header. Expected: title|author|isbn|publisher|publication_year|category|quantity"] },
        []) :=
  ⟨by decide, by decide,
    (C3_invalid_header_aborts "wrong|header|format\nx|y|z" [] []).1 (by decide) (by decide)⟩

/-- A cell is `NaN` for pandas exactly when it is the missing value. -/
lemma Cell.isna_iff (c : Cell) : c.isna = true ↔ c = Cell.na := by
  cases c <;> simp [Cell.isna]

/-- C4: in the text variant, a non-blank data line whose pipe-split field
count differs from the expected count records exactly the error
`Line <n>: Expected <k> fields, got <m>`, does not change the store or the
created count, and the loop goes on with the remaining lines; the loop
over the data lines is started at line number 2, the header being
line 1. -/
theorem C4_wrong_field_count_is_per_row (st : ImportState Book)
    (stu : ImportState LibraryUser) (idx m : Nat) (line : String) :
    (pyStrip line ≠ "" → m = (pySplit '|' (pyStrip line)).length → m ≠ 7 →
      bookTxtStep st idx line =
        { st with errors := st.errors ++ [s!"Line {idx}: Expected 7 fields, got {m}"] } ∧
      ∀ rest, bookTxtLoop idx (line :: rest) st =
        bookTxtLoop (idx + 1) rest (bookTxtStep st idx line)) ∧
    (pyStrip line ≠ "" → m = (pySplit '|' (pyStrip line)).length → m ≠ 6 →
      userTxtStep stu idx line =
        { stu with errors := stu.errors ++ [s!"Line {idx}: Expected 6 fields, got {m}"] } ∧
      ∀ rest, userTxtLoop idx (line :: rest) stu =
        userTxtLoop (idx + 1) rest (userTxtStep stu idx line)) ∧
    (∀ (content : String) (db : List Book) (hdr : String) (rest : List String),
      pySplit '\n' (pyStrip content) = hdr :: rest → rest ≠ [] →
      pySplit '|' (pyStrip hdr) = bookExpectedFields →
      bookProcessTxt content db =
        (bookTxtLoop 2 rest { db := db, created := 0, errors := [] }).finish) ∧
    (∀ (content : String) (db : List LibraryUser) (hdr : String) (rest : List String),
      pySplit '\n' (pyStrip content) = hdr :: rest → rest ≠ [] →
      pySplit '|' (pyStrip hdr) = userExpectedFields →
      userProcessTxt content db =
        (userTxtLoop 2 rest { db := db, created := 0, errors := [] }).finish) := by
  refine ⟨?_, ?_, ?_, ?_⟩
  · intro hb hm h7
    subst hm
    refine ⟨?_, fun rest => rfl⟩
    unfold bookTxtStep
    rw [if_neg hb]
    simp only []
    rw [if_pos h7]
  · intro hb hm h6
    subst hm
    refine ⟨?_, fun rest => rfl⟩
    unfold userTxtStep
    rw [if_neg hb]
    simp only []
    rw [if_pos h6]
  · intro content db hdr rest h1 h2 h3
    unfold bookProcessTxt
    simp only []
    rw [h1]
    rw [if_neg (by cases rest with
      | nil => exact absurd rfl h2
      | cons a t => simp)]
    simp only [List.getD_cons_zero, List.tail_cons]
    rw [if_neg (not_not_intro h3)]
  · intro content db hdr rest h1 h2 h3
    unfold userProcessTxt
    simp only []
    rw [h1]
    rw [if_neg (by cases rest with
      | nil => exact absurd rfl h2
      | cons a t => simp)]
    simp only [List.getD_cons_zero, List.tail_cons]
    rw [if_neg (not_not_intro h3)]

/-- C4 witness: the line `a|b` at line number 2 against an empty state. -/
theorem C4_wrong_field_count_is_per_row_check :
    pyStrip "a|b" ≠ "" ∧ (2 : Nat) = (pySplit '|' (pyStrip "a|b")).length ∧ (2 : Nat) ≠ 7 ∧
    bookTxtStep { db := [], created := 0, errors := [] } 2 "a|b" =
      { db := [], created := 0, errors := ["Line 2: Expected 7 fields, got 2"] } := by
  refine ⟨by decide, by decide, by decide, ?_⟩
  have h := (C4_wrong_field_count_is_per_row
      { db := [], created := 0, errors := [] }
      { db := [], created := 0, errors := [] } 2 2 "a|b").1
      (by decide) (by decide) (by decide)
  exact h.1.trans (by decide)

/-- C5: in the tabular variant, a data row leaves both the created count
and the error list unchanged precisely when its primary identifying field
is missing (`title`/`isbn` for Book, `full_name`/`registration_number`
for User), and such a row leaves the whole state untouched. -/
theorem C5_tabular_silent_skip_iff_missing_primary (cols : List String)
    (st : ImportState Book) (stu : ImportState LibraryUser) (idx : Nat)
    (row rowu : List Cell) :
    (((bookExcelStep cols st idx row).created = st.created ∧
        (bookExcelStep cols st idx row).errors = st.errors) ↔
      ((cellAt cols row "title").isna || (cellAt cols row "isbn").isna) = true) ∧
    (((cellAt cols row "title").isna || (cellAt cols row "isbn").isna) = true →
      bookExcelStep cols st idx row = st) ∧
    (((userExcelStep cols stu idx rowu).created = stu.created ∧
        (userExcelStep cols stu idx rowu).errors = stu.errors) ↔
      ((cellAt cols rowu "full_name").isna ||
        (cellAt cols rowu "registration_number").isna) = true) ∧
    (((cellAt cols rowu "full_name").isna ||
        (cellAt cols rowu "registration_number").isna) = true →
      userExcelStep cols stu idx rowu = stu) := by
  refine ⟨⟨?_, ?_⟩, ?_, ⟨?_, ?_⟩, ?_⟩
  · intro hsame
    rcases bookExcelStep_cases cols st idx row with ⟨heq, hcond⟩ | ⟨e, heq⟩ | ⟨b, heq, _⟩
    · exact hcond
    · rw [heq] at hsame
      simp at hsame
    · rw [heq] at hsame
      simp at hsame
  · intro hcond
    simp [bookExcelStep, hcond]
  · intro hcond
    simp [bookExcelStep, hcond]
  · intro hsame
    rcases userExcelStep_cases cols stu idx rowu with ⟨heq, hcond⟩ | ⟨e, heq⟩ | ⟨heq, _⟩
    · exact hcond
    · rw [heq] at hsame
      simp at hsame
    · rw [heq] at hsame
      simp at hsame
  · intro hcond
    simp [userExcelStep, hcond]
  · intro hcond
    simp [userExcelStep, hcond]

/-- C5 witness: a row with a missing `isbn` is skipped silently; the same
row with both primary fields present is not. -/
theorem C5_tabular_silent_skip_iff_missing_primary_check :
    ((cellAt bookExpectedColumns [Cell.str "A", Cell.na, Cell.na, Cell.na, Cell.na,
        Cell.na, Cell.int 1] "title").isna ||
      (cellAt bookExpectedColumns [Cell.str "A", Cell.na, Cell.na, Cell.na, Cell.na,
        Cell.na, Cell.int 1] "isbn").isna) = true ∧
    bookExcelStep bookExpectedColumns { db := [], created := 0, errors := [] } 0
      [Cell.str "A", Cell.na, Cell.na, Cell.na, Cell.na, Cell.na, Cell.int 1] =
      { db := [], created := 0, errors := [] } := by
  refine ⟨by decide, ?_⟩
  exact (C5_tabular_silent_skip_iff_missing_primary bookExpectedColumns
      { db := [], created := 0, errors := [] } { db := [], created := 0, errors := [] } 0
      [Cell.str "A", Cell.na, Cell.na, Cell.na, Cell.na, Cell.na, Cell.int 1] []).2.1
    (by decide)

/-- C6: in both User variants, a candidate row whose registration number
is already persisted is rejected with only the registration error — the
email check is never reached, so this holds in particular when the email
also collides — the row is not persisted, and the loop goes on with the
remaining rows. -/
theorem C6_registration_check_precedes_email (stu : ImportState LibraryUser)
    (cols : List String) (idx : Nat) (line : String) (rowu : List Cell)
    (reg regx : String) (n : Nat) :
    (pyStrip line ≠ "" → (pySplit '|' (pyStrip line)).length = 6 →
      reg = (userTxtRowData line).registration_number →
      stu.db.any (fun x => x.registration_number == reg) = true →
      userTxtStep stu idx line =
        { stu with errors :=
            stu.errors ++ [s!"Line {idx}: User with registration {reg} already exists"] } ∧
      ∀ rest, userTxtLoop idx (line :: rest) stu =
        userTxtLoop (idx + 1) rest (userTxtStep stu idx line)) ∧
    (((cellAt cols rowu "full_name").isna ||
        (cellAt cols rowu "registration_number").isna) = false →
      regx = (userExcelRowData cols rowu).registration_number →
      n = idx + 2 →
      stu.db.any (fun x => x.registration_number == regx) = true →
      userExcelStep cols stu idx rowu =
        { stu with errors :=
            stu.errors ++ [s!"Row {n}: User with registration {regx} already exists"] } ∧
      ∀ rest, userExcelLoop cols idx (rowu :: rest) stu =
        userExcelLoop cols (idx + 1) rest (userExcelStep cols stu idx rowu)) := by
  constructor
  · intro hb hm hreg hdup
    subst hreg
    refine ⟨?_, fun rest => rfl⟩
    unfold userTxtStep
    rw [if_neg hb]
    simp only []
    rw [if_neg (by omega), if_pos hdup]
  · intro hs hreg hn hdup
    subst hreg
    subst hn
    refine ⟨?_, fun rest => rfl⟩
    unfold userExcelStep
    rw [if_neg (by simp [hs])]
    simp only []
    rw [if_pos hdup]

/-- C6 witness: a row whose registration number and email both collide
with the persisted user `u0` yields only the registration error. -/
theorem C6_registration_check_precedes_email_check :
    pyStrip "John|j@x.com|1|a|REG001|True" ≠ "" ∧
    (pySplit '|' (pyStrip "John|j@x.com|1|a|REG001|True")).length = 6 ∧
    ("REG001" : String) =
      (userTxtRowData "John|j@x.com|1|a|REG001|True").registration_number ∧
    ([{ full_name := "Old", email := "j@x.com", phone := "", address := "",
        registration_number := "REG001", is_active := true }] :
      List LibraryUser).any (fun x => x.registration_number == "REG001") = true ∧
    userTxtStep
      { db := [{ full_name := "Old", email := "j@x.com", phone := "", address := "",
                 registration_number := "REG001", is_active := true }],
        created := 0, errors := [] } 2 "John|j@x.com|1|a|REG001|True" =
      { db := [{ full_name := "Old", email := "j@x.com", phone := "", address := "",
                 registration_number := "REG001", is_active := true }],
        created := 0,
        errors := ["Line 2: User with registration REG001 already exists"] } := by
  refine ⟨by decide, by decide, by decide, by decide, ?_⟩
  have h := (C6_registration_check_precedes_email
      { db := [{ full_name := "Old", email := "j@x.com", phone := "", address := "",
                 registration_number := "REG001", is_active := true }],
        created := 0, errors := [] } [] 2 "John|j@x.com|1|a|REG001|True" []
      "REG001" "" 0).1 (by decide) (by decide) (by decide) (by decide)
  exact h.1.trans (by decide)

/-- C10: in the tabular variant, a row whose `author` (Book) or `email`
(User) cell is missing while the primary fields are present is neither
skipped nor errored: it is persisted with that field equal to the literal
string `nan`, whereas missing `publisher`, `category`, `phone` and
`address` become the empty string (and a missing `is_active` becomes
true). -/
theorem C10_missing_author_email_become_nan (cols : List String)
    (st : ImportState Book) (stu : ImportState LibraryUser) (idx : Nat)
    (row rowu : List Cell) (q : Int) :
    ((cellAt cols row "title").isna = false →
      (cellAt cols row "isbn").isna = false →
      (cellAt cols row "author").isna = true →
      (cellAt cols row "publisher").isna = true →
      (cellAt cols row "category").isna = true →
      (cellAt cols row "publication_year").isna = true →
      (cellAt cols row "quantity").pyInt = some q →
      st.db.any (fun x => x.isbn == pyStrip (cellAt cols row "isbn").pyStr) = false →
      bookExcelStep cols st idx row =
        { st with
          db := st.db ++
            [{ title := pyStrip (cellAt cols row "title").pyStr,
               author := "nan",
               isbn := pyStrip (cellAt cols row "isbn").pyStr,
               publisher := "", publication_year := none, category := "",
               quantity := q, available_quantity := q }],
          created := st.created + 1 }) ∧
    ((cellAt cols rowu "full_name").isna = false →
      (cellAt cols rowu "registration_number").isna = false →
      (cellAt cols rowu "email").isna = true →
      (cellAt cols rowu "phone").isna = true →
      (cellAt cols rowu "address").isna = true →
      (cellAt cols rowu "is_active").isna = true →
      stu.db.any (fun x =>
        x.registration_number ==
          pyStrip (cellAt cols rowu "registration_number").pyStr) = false →
      stu.db.any (fun x => x.email == "nan") = false →
      userExcelStep cols stu idx rowu =
        { stu with
          db := stu.db ++
            [{ full_name := pyStrip (cellAt cols rowu "full_name").pyStr,
               email := "nan", phone := "", address := "",
               registration_number :=
                 pyStrip (cellAt cols rowu "registration_number").pyStr,
               is_active := true }],
          created := stu.created + 1 }) := by
  have hnan : pyStrip "nan" = "nan" := by decide
  constructor
  · intro h1 h2 h3 h4 h5 h6 h7 h8
    have hA := (Cell.isna_iff _).mp h3
    have hP := (Cell.isna_iff _).mp h4
    have hC := (Cell.isna_iff _).mp h5
    have hY := (Cell.isna_iff _).mp h6
    have hparse : bookExcelParse cols row =
        some { title := pyStrip (cellAt cols row "title").pyStr,
               author := "nan",
               isbn := pyStrip (cellAt cols row "isbn").pyStr,
               publisher := "", publication_year := none, category := "",
               quantity := q, available_quantity := q } := by
      unfold bookExcelParse
      rw [hY, h7]
      simp [Cell.isna, Cell.pyStr, hA, hP, hC, hnan]
    unfold bookExcelStep
    rw [if_neg (by simp [h1, h2])]
    simp only []
    rw [hparse]
    simp only []
    rw [if_neg (by simp [h8])]
  · intro h1 h2 h3 h4 h5 h6 h7 h8
    have hE := (Cell.isna_iff _).mp h3
    have hPh := (Cell.isna_iff _).mp h4
    have hAd := (Cell.isna_iff _).mp h5
    have hAc := (Cell.isna_iff _).mp h6
    have hu : userExcelRowData cols rowu =
        { full_name := pyStrip (cellAt cols rowu "full_name").pyStr,
          email := "nan", phone := "", address := "",
          registration_number :=
            pyStrip (cellAt cols rowu "registration_number").pyStr,
          is_active := true } := by
      unfold userExcelRowData
      simp [Cell.isna, Cell.pyStr, hE, hPh, hAd, hAc, hnan]
    unfold userExcelStep
    rw [if_neg (by simp [h1, h2])]
    simp only []
    rw [hu]
    simp only []
    rw [if_neg (by simp [h7]), if_neg (by simp [h8])]

/-- C10 witness: a Book row with missing author, publisher, category and
year is committed with author `nan` and empty publisher/category. -/
theorem C10_missing_author_email_become_nan_check :
    (cellAt bookExpectedColumns
      [Cell.str "A", Cell.na, Cell.str "111", Cell.na, Cell.na, Cell.na, Cell.int 3]
      "title").isna = false ∧
    bookExcelStep bookExpectedColumns { db := [], created := 0, errors := [] } 0
      [Cell.str "A", Cell.na, Cell.str "111", Cell.na, Cell.na, Cell.na, Cell.int 3] =
      { db := [{ title := "A", author := "nan", isbn := "111", publisher := "",
                 publication_year := none, category := "", quantity := 3,
                 available_quantity := 3 }],
        created := 1, errors := [] } := by
  refine ⟨by decide, ?_⟩
  have h := (C10_missing_author_email_become_nan bookExpectedColumns
      { db := [], created := 0, errors := [] } { db := [], created := 0, errors := [] }
      0 [Cell.str "A", Cell.na, Cell.str "111", Cell.na, Cell.na, Cell.na, Cell.int 3]
      [] 3).1 (by decide) (by decide) (by decide) (by decide) (by decide) (by decide)
      (by decide) (by decide)
  exact h.trans (by decide)

/-- A loop whose step only ever appends records that are `R`-fresh with
respect to the store preserves pairwise `R`. -/
lemma importLoop_pairwise {α ρ : Type} {R : α → α → Prop}
    {step : ImportState α → Nat → ρ → ImportState α}
    (hstep : ∀ (st : ImportState α) (idx : Nat) (r : ρ),
      (step st idx r).db = st.db ∨
      ∃ b, (step st idx r).db = st.db ++ [b] ∧ ∀ x ∈ st.db, R x b) :
    ∀ (rows : List ρ) (idx : Nat) (st : ImportState α),
      st.db.Pairwise R → (importLoop step idx rows st).db.Pairwise R := by
  intro rows
  induction rows with
  | nil => exact fun idx st h => h
  | cons r rest ih =>
    intro idx st h
    rw [importLoop_cons]
    refine ih (idx + 1) (step st idx r) ?_
    rcases hstep st idx r with hdb | ⟨b, hdb, hfresh⟩
    · rw [hdb]; exact h
    · rw [hdb]
      refine List.pairwise_append.mpr ⟨h, List.pairwise_singleton _ _, ?_⟩
      intro x hx y hy
      rw [List.mem_singleton] at hy
      subst hy
      exact hfresh x hx

lemma bookTxtStep_keeps_or_fresh (st : ImportState Book) (idx : Nat) (line : String) :
    (bookTxtStep st idx line).db = st.db ∨
    ∃ b, (bookTxtStep st idx line).db = st.db ++ [b] ∧
      ∀ x ∈ st.db, x.isbn ≠ b.isbn := by
  rcases bookTxtStep_cases st idx line with ⟨h, _⟩ | ⟨e, h⟩ | ⟨b, h, hfresh, _⟩
  · exact Or.inl (by rw [h])
  · exact Or.inl (by rw [h])
  · refine Or.inr ⟨b, by rw [h], ?_⟩
    intro x hx
    have h2 := List.any_eq_false.mp hfresh x hx
    simpa using h2

lemma bookExcelStep_keeps_or_fresh (cols : List String) (st : ImportState Book)
    (idx : Nat) (row : List Cell) :
    (bookExcelStep cols st idx row).db = st.db ∨
    ∃ b, (bookExcelStep cols st idx row).db = st.db ++ [b] ∧
      ∀ x ∈ st.db, x.isbn ≠ b.isbn := by
  rcases bookExcelStep_cases cols st idx row with ⟨h, _⟩ | ⟨e, h⟩ | ⟨b, h, hfresh, _⟩
  · exact Or.inl (by rw [h])
  · exact Or.inl (by rw [h])
  · refine Or.inr ⟨b, by rw [h], ?_⟩
    intro x hx
    have h2 := List.any_eq_false.mp hfresh x hx
    simpa using h2

lemma userTxtStep_keeps_or_fresh (st : ImportState LibraryUser) (idx : Nat)
    (line : String) :
    ((userTxtStep st idx line).db = st.db ∨
      ∃ u, (userTxtStep st idx line).db = st.db ++ [u] ∧
        ∀ x ∈ st.db, x.registration_number ≠ u.registration_number) ∧
    ((userTxtStep st idx line).db = st.db ∨
      ∃ u, (userTxtStep st idx line).db = st.db ++ [u] ∧
        ∀ x ∈ st.db, x.email ≠ u.email) := by
  rcases userTxtStep_cases st idx line with ⟨h, _⟩ | ⟨e, h⟩ | ⟨h, hreg, hem, _⟩
  · exact ⟨Or.inl (by rw [h]), Or.inl (by rw [h])⟩
  · exact ⟨Or.inl (by rw [h]), Or.inl (by rw [h])⟩
  · constructor
    · refine Or.inr ⟨userTxtRowData line, by rw [h], ?_⟩
      intro x hx
      have h2 := List.any_eq_false.mp hreg x hx
      simpa using h2
    · refine Or.inr ⟨userTxtRowData line, by rw [h], ?_⟩
      intro x hx
      have h2 := List.any_eq_false.mp hem x hx
      simpa using h2

lemma userExcelStep_keeps_or_fresh (cols : List String) (st : ImportState LibraryUser)
    (idx : Nat) (row : List Cell) :
    ((userExcelStep cols st idx row).db = st.db ∨
      ∃ u, (userExcelStep cols st idx row).db = st.db ++ [u] ∧
        ∀ x ∈ st.db, x.registration_number ≠ u.registration_number) ∧
    ((userExcelStep cols st idx row).db = st.db ∨
      ∃ u, (userExcelStep cols st idx row).db = st.db ++ [u] ∧
        ∀ x ∈ st.db, x.email ≠ u.email) := by
  rcases userExcelStep_cases cols st idx row with ⟨h, _⟩ | ⟨e, h⟩ | ⟨h, hreg, hem, _⟩
  · exact ⟨Or.inl (by rw [h]), Or.inl (by rw [h])⟩
  · exact ⟨Or.inl (by rw [h]), Or.inl (by rw [h])⟩
  · constructor
    · refine Or.inr ⟨userExcelRowData cols row, by rw [h], ?_⟩
      intro x hx
      have h2 := List.any_eq_false.mp hreg x hx
      simpa using h2
    · refine Or.inr ⟨userExcelRowData cols row, by rw [h], ?_⟩
      intro x hx
      have h2 := List.any_eq_false.mp hem x hx
      simpa using h2

/-- The store returned by `bookProcessTxt` is either the input store or
the store of the row loop run on it. -/
lemma bookProcessTxt_db (content : String) (db : List Book) :
    (bookProcessTxt content db).2 = db ∨
    ∃ rest, (bookProcessTxt content db).2 =
      (bookTxtLoop 2 rest { db := db, created := 0, errors := [] }).db := by
  unfold bookProcessTxt
  simp only []
  split_ifs
  · exact Or.inl rfl
  · exact Or.inl rfl
  · exact Or.inr ⟨_, rfl⟩

lemma userProcessTxt_db (content : String) (db : List LibraryUser) :
    (userProcessTxt content db).2 = db ∨
    ∃ rest, (userProcessTxt content db).2 =
      (userTxtLoop 2 rest { db := db, created := 0, errors := [] }).db := by
  unfold userProcessTxt
  simp only []
  split_ifs
  · exact Or.inl rfl
  · exact Or.inl rfl
  · exact Or.inr ⟨_, rfl⟩

lemma bookProcessExcel_db (input : Option DataFrame) (db : List Book) :
    (bookProcessExcel input db).2 = db ∨
    ∃ cols rows, (bookProcessExcel input db).2 =
      (bookExcelLoop cols 0 rows { db := db, created := 0, errors := [] }).db := by
  unfold bookProcessExcel
  cases input with
  | none => exact Or.inl rfl
  | some df =>
    simp only []
    split_ifs
    · exact Or.inl rfl
    · exact Or.inr ⟨_, _, rfl⟩

lemma userProcessExcel_db (input : Option DataFrame) (db : List LibraryUser) :
    (userProcessExcel input db).2 = db ∨
    ∃ cols rows, (userProcessExcel input db).2 =
      (userExcelLoop cols 0 rows { db := db, created := 0, errors := [] }).db := by
  unfold userProcessExcel
  cases input with
  | none => exact Or.inl rfl
  | some df =>
    simp only []
    split_ifs
    · exact Or.inl rfl
    · exact Or.inr ⟨_, _, rfl⟩

/-- C9: a candidate row whose natural key (ISBN; registration number or
email) is already persisted — also by an earlier row of the same
invocation — is errored, not persisted, so every import invocation
preserves at-most-one-record-per-key over the store. -/
theorem C9_duplicate_rows_rejected_key_stays_unique :
    (∀ (content : String) (bdb : List Book),
      isbnUnique bdb → isbnUnique (bookProcessTxt content bdb).2) ∧
    (∀ (input : Option DataFrame) (bdb : List Book),
      isbnUnique bdb → isbnUnique (bookProcessExcel input bdb).2) ∧
    (∀ (content : String) (udb : List LibraryUser),
      usersUnique udb → usersUnique (userProcessTxt content udb).2) ∧
    (∀ (input : Option DataFrame) (udb : List LibraryUser),
      usersUnique udb → usersUnique (userProcessExcel input udb).2) ∧
    (∀ (st : ImportState Book) (idx : Nat) (line : String) (b : Book),
      pyStrip line ≠ "" → (pySplit '|' (pyStrip line)).length = 7 →
      bookTxtParse line = some b →
      st.db.any (fun x => x.isbn == b.isbn) = true →
      (bookTxtStep st idx line).db = st.db ∧
      (bookTxtStep st idx line).created = st.created ∧
      (bookTxtStep st idx line).errors.length = st.errors.length + 1) ∧
    (∀ (cols : List String) (st : ImportState Book) (idx : Nat) (row : List Cell)
        (b : Book),
      ((cellAt cols row "title").isna || (cellAt cols row "isbn").isna) = false →
      bookExcelParse cols row = some b →
      st.db.any (fun x => x.isbn == b.isbn) = true →
      (bookExcelStep cols st idx row).db = st.db ∧
      (bookExcelStep cols st idx row).created = st.created ∧
      (bookExcelStep cols st idx row).errors.length = st.errors.length + 1) ∧
    (∀ (st : ImportState LibraryUser) (idx : Nat) (line : String),
      pyStrip line ≠ "" → (pySplit '|' (pyStrip line)).length = 6 →
      (st.db.any (fun x =>
          x.registration_number == (userTxtRowData line).registration_number) = true ∨
        st.db.any (fun x => x.email == (userTxtRowData line).email) = true) →
      (userTxtStep st idx line).db = st.db ∧
      (userTxtStep st idx line).created = st.created ∧
      (userTxtStep st idx line).errors.length = st.errors.length + 1) ∧
    (∀ (cols : List String) (st : ImportState LibraryUser) (idx : Nat)
        (row : List Cell),
      ((cellAt cols row "full_name").isna ||
        (cellAt cols row "registration_number").isna) = false →
      (st.db.any (fun x =>
          x.registration_number ==
            (userExcelRowData cols row).registration_number) = true ∨
        st.db.any (fun x => x.email == (userExcelRowData cols row).email) = true) →
      (userExcelStep cols st idx row).db = st.db ∧
      (userExcelStep cols st idx row).created = st.created ∧
      (userExcelStep cols st idx row).errors.length = st.errors.length + 1) := by
  refine ⟨?_, ?_, ?_, ?_, ?_, ?_, ?_, ?_⟩
  · intro content bdb h
    rcases bookProcessTxt_db content bdb with hdb | ⟨rest, hdb⟩
    · rw [hdb]; exact h
    · rw [hdb]
      exact importLoop_pairwise bookTxtStep_keeps_or_fresh rest 2 _ h
  · intro input bdb h
    rcases bookProcessExcel_db input bdb with hdb | ⟨cols, rows, hdb⟩
    · rw [hdb]; exact h
    · rw [hdb]
      exact importLoop_pairwise (bookExcelStep_keeps_or_fresh cols) rows 0 _ h
  · intro content udb h
    rcases userProcessTxt_db content udb with hdb | ⟨rest, hdb⟩
    · rw [hdb]; exact h
    · rw [hdb]
      exact ⟨importLoop_pairwise (fun st idx r => (userTxtStep_keeps_or_fresh st idx r).1)
          rest 2 _ h.1,
        importLoop_pairwise (fun st idx r => (userTxtStep_keeps_or_fresh st idx r).2)
          rest 2 _ h.2⟩
  · intro input udb h
    rcases userProcessExcel_db input udb with hdb | ⟨cols, rows, hdb⟩
    · rw [hdb]; exact h
    · rw [hdb]
      exact ⟨importLoop_pairwise
          (fun st idx r => (userExcelStep_keeps_or_fresh cols st idx r).1) rows 0 _ h.1,
        importLoop_pairwise
          (fun st idx r => (userExcelStep_keeps_or_fresh cols st idx r).2) rows 0 _ h.2⟩
  · intro st idx line b hb hm hp hdup
    unfold bookTxtStep
    rw [if_neg hb]
    simp only []
    rw [if_neg (by omega), hp]
    simp only []
    rw [if_pos hdup]
    simp
  · intro cols st idx row b hs hp hdup
    unfold bookExcelStep
    rw [if_neg (by simp [hs])]
    simp only []
    rw [hp]
    simp only []
    rw [if_pos hdup]
    simp
  · intro st idx line hb hm hdup
    unfold userTxtStep
    rw [if_neg hb]
    simp only []
    rw [if_neg (by omega)]
    rcases hdup with hreg | hem
    · rw [if_pos hreg]
      simp
    · by_cases hreg : st.db.any (fun x =>
          x.registration_number == (userTxtRowData line).registration_number) = true
      · rw [if_pos hreg]
        simp
      · rw [if_neg hreg, if_pos hem]
        simp
  · intro cols st idx row hs hdup
    unfold userExcelStep
    rw [if_neg (by simp [hs])]
    simp only []
    rcases hdup with hreg | hem
    · rw [if_pos hreg]
      simp
    · by_cases hreg : st.db.any (fun x =>
          x.registration_number == (userExcelRowData cols row).registration_number) = true
      · rw [if_pos hreg]
        simp
      · rw [if_neg hreg, if_pos hem]
        simp

/-- C9 witness: a two-line Book file whose second row repeats the ISBN of
the first yields a store that is still ISBN-unique, and contains one
book. -/
theorem C9_duplicate_rows_rejected_key_stays_unique_check :
    isbnUnique [] ∧
    isbnUnique (bookProcessTxt
      "title|author|isbn|publisher|publication_year|category|quantity\nA|B|111|P|1999|F|2\nC|D|111|Q|2000|G|1"
      []).2 ∧
    (bookProcessTxt
      "title|author|isbn|publisher|publication_year|category|quantity\nA|B|111|P|1999|F|2\nC|D|111|Q|2000|G|1"
      []).2.length = 1 := by
  refine ⟨by unfold isbnUnique; decide, ?_, by decide⟩
  exact C9_duplicate_rows_rejected_key_stays_unique.1
    "title|author|isbn|publisher|publication_year|category|quantity\nA|B|111|P|1999|F|2\nC|D|111|Q|2000|G|1"
    [] (by unfold isbnUnique; decide)

/-! ### Second-run analysis (claim C7) -/

/-- Generic second-run lemma: if a run of the loop from `st1` emitted no
errors, and every record of its final store has a key-equal record in
`st2`'s store, then running the same rows from `st2` commits nothing: it
errors once per row the first run committed and leaves the store alone.
The step function is abstracted by its three possible shapes, the
stability of skipping, and the rejection of already-present keys. -/
lemma importLoop_rerun {α ρ : Type} {step : ImportState α → Nat → ρ → ImportState α}
    (key : α → String) (hgrows : StepGrows step)
    (hcases : ∀ (st : ImportState α) (idx : Nat) (r : ρ),
      step st idx r = st ∨
      (∃ e, step st idx r = { st with errors := st.errors ++ [e] }) ∨
      (∃ b, step st idx r = { st with db := st.db ++ [b], created := st.created + 1 }))
    (hskip : ∀ (st1 st2 : ImportState α) (idx : Nat) (r : ρ),
      step st1 idx r = st1 → step st2 idx r = st2)
    (hdup : ∀ (st1 st2 : ImportState α) (idx : Nat) (r : ρ) (b : α),
      step st1 idx r = { st1 with db := st1.db ++ [b], created := st1.created + 1 } →
      (∃ b2 ∈ st2.db, key b2 = key b) →
      ∃ e, step st2 idx r = { st2 with errors := st2.errors ++ [e] }) :
    ∀ (rows : List ρ) (idx : Nat) (st1 st2 : ImportState α),
      (importLoop step idx rows st1).errors = st1.errors →
      (∀ b ∈ (importLoop step idx rows st1).db, ∃ b2 ∈ st2.db, key b2 = key b) →
      (importLoop step idx rows st2).created = st2.created ∧
      (importLoop step idx rows st2).errors.length =
        st2.errors.length + ((importLoop step idx rows st1).created - st1.created) ∧
      (importLoop step idx rows st2).db = st2.db := by
  intro rows
  induction rows with
  | nil =>
    intro idx st1 st2 h1 h2
    exact ⟨rfl, by simp [importLoop_nil], rfl⟩
  | cons r rest ih =>
    intro idx st1 st2 h1 h2
    rcases hcases st1 idx r with hid | ⟨e, heq⟩ | ⟨b, heq⟩
    · have hid2 := hskip st1 st2 idx r hid
      rw [importLoop_cons, hid] at h1 h2
      rw [importLoop_cons, hid2, importLoop_cons, hid]
      exact ih (idx + 1) st1 st2 h1 h2
    · exfalso
      obtain ⟨l, es, _, herr, _⟩ :=
        importLoop_grows hgrows rest (idx + 1) (step st1 idx r)
      rw [importLoop_cons] at h1
      rw [herr, heq] at h1
      have hlen := congrArg List.length h1
      simp at hlen
    · have hmem : b ∈ (importLoop step idx (r :: rest) st1).db := by
        obtain ⟨l, es, hdb, _, _⟩ :=
          importLoop_grows hgrows rest (idx + 1) (step st1 idx r)
        rw [importLoop_cons, hdb, heq]
        simp
      obtain ⟨e2, hstep2⟩ := hdup st1 st2 idx r b heq (h2 b hmem)
      rw [importLoop_cons, heq] at h1 h2
      have h1' : (importLoop step (idx + 1) rest
          { st1 with db := st1.db ++ [b], created := st1.created + 1 }).errors =
          ({ st1 with db := st1.db ++ [b], created := st1.created + 1 } :
            ImportState α).errors := h1
      have h2' : ∀ x ∈ (importLoop step (idx + 1) rest
          { st1 with db := st1.db ++ [b], created := st1.created + 1 }).db,
          ∃ b2 ∈ ({ st2 with errors := st2.errors ++ [e2] } : ImportState α).db,
            key b2 = key x := h2
      obtain ⟨g1, g2, g3⟩ := ih (idx + 1) _ _ h1' h2'
      obtain ⟨l, es, _, _, hcre⟩ := importLoop_grows hgrows rest (idx + 1)
        ({ st1 with db := st1.db ++ [b], created := st1.created + 1 } : ImportState α)
      refine ⟨?_, ?_, ?_⟩
      · rw [importLoop_cons, hstep2]
        exact g1
      · rw [importLoop_cons, hstep2, importLoop_cons, heq]
        simp only [List.length_append, List.length_cons, List.length_nil] at g2 ⊢
        simp only [] at hcre
        omega
      · rw [importLoop_cons, hstep2]
        exact g3

lemma bookTxtStep_skip (st : ImportState Book) (idx : Nat) (line : String)
    (h : pyStrip line = "") : bookTxtStep st idx line = st := by
  simp [bookTxtStep, h]

lemma userTxtStep_skip (st : ImportState LibraryUser) (idx : Nat) (line : String)
    (h : pyStrip line = "") : userTxtStep st idx line = st := by
  simp [userTxtStep, h]

lemma bookExcelStep_skip (cols : List String) (st : ImportState Book) (idx : Nat)
    (row : List Cell)
    (h : ((cellAt cols row "title").isna || (cellAt cols row "isbn").isna) = true) :
    bookExcelStep cols st idx row = st := by
  simp [bookExcelStep, h]

lemma userExcelStep_skip (cols : List String) (st : ImportState LibraryUser) (idx : Nat)
    (row : List Cell)
    (h : ((cellAt cols row "full_name").isna ||
      (cellAt cols row "registration_number").isna) = true) :
    userExcelStep cols st idx row = st := by
  simp [userExcelStep, h]

lemma bookTxtStep_dup (st : ImportState Book) (idx : Nat) (line : String) (b : Book)
    (hb : pyStrip line ≠ "") (hm : (pySplit '|' (pyStrip line)).length = 7)
    (hp : bookTxtParse line = some b)
    (hdup : st.db.any (fun x => x.isbn == b.isbn) = true) :
    ∃ e, bookTxtStep st idx line = { st with errors := st.errors ++ [e] } := by
  unfold bookTxtStep
  rw [if_neg hb]
  simp only []
  rw [if_neg (by omega), hp]
  simp only []
  rw [if_pos hdup]
  exact ⟨_, rfl⟩

lemma userTxtStep_dup (st : ImportState LibraryUser) (idx : Nat) (line : String)
    (hb : pyStrip line ≠ "") (hm : (pySplit '|' (pyStrip line)).length = 6)
    (hdup : st.db.any (fun x =>
      x.registration_number == (userTxtRowData line).registration_number) = true) :
    ∃ e, userTxtStep st idx line = { st with errors := st.errors ++ [e] } := by
  unfold userTxtStep
  rw [if_neg hb]
  simp only []
  rw [if_neg (by omega), if_pos hdup]
  exact ⟨_, rfl⟩

lemma bookExcelStep_dup (cols : List String) (st : ImportState Book) (idx : Nat)
    (row : List Cell) (b : Book)
    (hs : ((cellAt cols row "title").isna || (cellAt cols row "isbn").isna) = false)
    (hp : bookExcelParse cols row = some b)
    (hdup : st.db.any (fun x => x.isbn == b.isbn) = true) :
    ∃ e, bookExcelStep cols st idx row = { st with errors := st.errors ++ [e] } := by
  unfold bookExcelStep
  rw [if_neg (by simp [hs])]
  simp only []
  rw [hp]
  simp only []
  rw [if_pos hdup]
  exact ⟨_, rfl⟩

lemma userExcelStep_dup (cols : List String) (st : ImportState LibraryUser) (idx : Nat)
    (row : List Cell)
    (hs : ((cellAt cols row "full_name").isna ||
      (cellAt cols row "registration_number").isna) = false)
    (hdup : st.db.any (fun x =>
      x.registration_number == (userExcelRowData cols row).registration_number) = true) :
    ∃ e, userExcelStep cols st idx row = { st with errors := st.errors ++ [e] } := by
  unfold userExcelStep
  rw [if_neg (by simp [hs])]
  simp only []
  rw [if_pos hdup]
  exact ⟨_, rfl⟩

lemma bookTxtStep_shapes (st : ImportState Book) (idx : Nat) (r : String) :
    bookTxtStep st idx r = st ∨
    (∃ e, bookTxtStep st idx r = { st with errors := st.errors ++ [e] }) ∨
    (∃ b, bookTxtStep st idx r =
      { st with db := st.db ++ [b], created := st.created + 1 }) := by
  rcases bookTxtStep_cases st idx r with ⟨h, _⟩ | ⟨e, h⟩ | ⟨b, h, _⟩
  · exact Or.inl h
  · exact Or.inr (Or.inl ⟨e, h⟩)
  · exact Or.inr (Or.inr ⟨b, h⟩)

lemma userTxtStep_shapes (st : ImportState LibraryUser) (idx : Nat) (r : String) :
    userTxtStep st idx r = st ∨
    (∃ e, userTxtStep st idx r = { st with errors := st.errors ++ [e] }) ∨
    (∃ u, userTxtStep st idx r =
      { st with db := st.db ++ [u], created := st.created + 1 }) := by
  rcases userTxtStep_cases st idx r with ⟨h, _⟩ | ⟨e, h⟩ | ⟨h, _⟩
  · exact Or.inl h
  · exact Or.inr (Or.inl ⟨e, h⟩)
  · exact Or.inr (Or.inr ⟨_, h⟩)

lemma bookExcelStep_shapes (cols : List String) (st : ImportState Book) (idx : Nat)
    (r : List Cell) :
    bookExcelStep cols st idx r = st ∨
    (∃ e, bookExcelStep cols st idx r = { st with errors := st.errors ++ [e] }) ∨
    (∃ b, bookExcelStep cols st idx r =
      { st with db := st.db ++ [b], created := st.created + 1 }) := by
  rcases bookExcelStep_cases cols st idx r with ⟨h, _⟩ | ⟨e, h⟩ | ⟨b, h, _⟩
  · exact Or.inl h
  · exact Or.inr (Or.inl ⟨e, h⟩)
  · exact Or.inr (Or.inr ⟨b, h⟩)

lemma userExcelStep_shapes (cols : List String) (st : ImportState LibraryUser) (idx : Nat)
    (r : List Cell) :
    userExcelStep cols st idx r = st ∨
    (∃ e, userExcelStep cols st idx r = { st with errors := st.errors ++ [e] }) ∨
    (∃ u, userExcelStep cols st idx r =
      { st with db := st.db ++ [u], created := st.created + 1 }) := by
  rcases userExcelStep_cases cols st idx r with ⟨h, _⟩ | ⟨e, h⟩ | ⟨h, _⟩
  · exact Or.inl h
  · exact Or.inr (Or.inl ⟨e, h⟩)
  · exact Or.inr (Or.inr ⟨_, h⟩)

lemma bookTxtStep_id_stable (st1 st2 : ImportState Book) (idx : Nat) (r : String)
    (h : bookTxtStep st1 idx r = st1) : bookTxtStep st2 idx r = st2 := by
  rcases bookTxtStep_cases st1 idx r with ⟨_, hb⟩ | ⟨e, heq⟩ | ⟨b, heq, _⟩
  · exact bookTxtStep_skip st2 idx r hb
  · rw [heq] at h
    have hlen := congrArg (fun s => s.errors.length) h
    simp at hlen
  · rw [heq] at h
    have hcre := congrArg (fun s => s.created) h
    simp at hcre

lemma userTxtStep_id_stable (st1 st2 : ImportState LibraryUser) (idx : Nat) (r : String)
    (h : userTxtStep st1 idx r = st1) : userTxtStep st2 idx r = st2 := by
  rcases userTxtStep_cases st1 idx r with ⟨_, hb⟩ | ⟨e, heq⟩ | ⟨heq, _⟩
  · exact userTxtStep_skip st2 idx r hb
  · rw [heq] at h
    have hlen := congrArg (fun s => s.errors.length) h
    simp at hlen
  · rw [heq] at h
    have hcre := congrArg (fun s => s.created) h
    simp at hcre

lemma bookExcelStep_id_stable (cols : List String) (st1 st2 : ImportState Book)
    (idx : Nat) (r : List Cell) (h : bookExcelStep cols st1 idx r = st1) :
    bookExcelStep cols st2 idx r = st2 := by
  rcases bookExcelStep_cases cols st1 idx r with ⟨_, hs⟩ | ⟨e, heq⟩ | ⟨b, heq, _⟩
  · exact bookExcelStep_skip cols st2 idx r hs
  · rw [heq] at h
    have hlen := congrArg (fun s => s.errors.length) h
    simp at hlen
  · rw [heq] at h
    have hcre := congrArg (fun s => s.created) h
    simp at hcre

lemma userExcelStep_id_stable (cols : List String) (st1 st2 : ImportState LibraryUser)
    (idx : Nat) (r : List Cell) (h : userExcelStep cols st1 idx r = st1) :
    userExcelStep cols st2 idx r = st2 := by
  rcases userExcelStep_cases cols st1 idx r with ⟨_, hs⟩ | ⟨e, heq⟩ | ⟨heq, _⟩
  · exact userExcelStep_skip cols st2 idx r hs
  · rw [heq] at h
    have hlen := congrArg (fun s => s.errors.length) h
    simp at hlen
  · rw [heq] at h
    have hcre := congrArg (fun s => s.created) h
    simp at hcre

lemma bookTxtStep_dup_of_create (st1 st2 : ImportState Book) (idx : Nat) (r : String)
    (b : Book)
    (h : bookTxtStep st1 idx r = { st1 with db := st1.db ++ [b], created := st1.created + 1 })
    (hkey : ∃ b2 ∈ st2.db, b2.isbn = b.isbn) :
    ∃ e, bookTxtStep st2 idx r = { st2 with errors := st2.errors ++ [e] } := by
  rcases bookTxtStep_cases st1 idx r with ⟨heq, _⟩ | ⟨e, heq⟩ | ⟨b', heq, _, hb, hm, hp⟩
  · rw [h] at heq
    have hcre := congrArg (fun s => s.created) heq
    simp at hcre
  · rw [h] at heq
    have hcre := congrArg (fun s => s.created) heq
    simp at hcre
  · have h2 := h.symm.trans heq
    have hdb := congrArg (fun s => s.db) h2
    simp at hdb
    subst hdb
    obtain ⟨b2, hb2, hkeq⟩ := hkey
    exact bookTxtStep_dup st2 idx r b hb hm hp
      (List.any_eq_true.mpr ⟨b2, hb2, by simp [hkeq]⟩)

lemma userTxtStep_dup_of_create (st1 st2 : ImportState LibraryUser) (idx : Nat)
    (r : String) (u : LibraryUser)
    (h : userTxtStep st1 idx r = { st1 with db := st1.db ++ [u], created := st1.created + 1 })
    (hkey : ∃ u2 ∈ st2.db, u2.registration_number = u.registration_number) :
    ∃ e, userTxtStep st2 idx r = { st2 with errors := st2.errors ++ [e] } := by
  rcases userTxtStep_cases st1 idx r with ⟨heq, _⟩ | ⟨e, heq⟩ | ⟨heq, _, _, hb, hm⟩
  · rw [h] at heq
    have hcre := congrArg (fun s => s.created) heq
    simp at hcre
  · rw [h] at heq
    have hcre := congrArg (fun s => s.created) heq
    simp at hcre
  · have h2 := h.symm.trans heq
    have hdb := congrArg (fun s => s.db) h2
    simp at hdb
    obtain ⟨u2, hu2, hkeq⟩ := hkey
    refine userTxtStep_dup st2 idx r hb hm
      (List.any_eq_true.mpr ⟨u2, hu2, by simp [hkeq, hdb]⟩)

lemma bookExcelStep_dup_of_create (cols : List String) (st1 st2 : ImportState Book)
    (idx : Nat) (r : List Cell) (b : Book)
    (h : bookExcelStep cols st1 idx r =
      { st1 with db := st1.db ++ [b], created := st1.created + 1 })
    (hkey : ∃ b2 ∈ st2.db, b2.isbn = b.isbn) :
    ∃ e, bookExcelStep cols st2 idx r = { st2 with errors := st2.errors ++ [e] } := by
  rcases bookExcelStep_cases cols st1 idx r with ⟨heq, _⟩ | ⟨e, heq⟩ | ⟨b', heq, _, hs, hp⟩
  · rw [h] at heq
    have hcre := congrArg (fun s => s.created) heq
    simp at hcre
  · rw [h] at heq
    have hcre := congrArg (fun s => s.created) heq
    simp at hcre
  · have h2 := h.symm.trans heq
    have hdb := congrArg (fun s => s.db) h2
    simp at hdb
    subst hdb
    obtain ⟨b2, hb2, hkeq⟩ := hkey
    exact bookExcelStep_dup cols st2 idx r b hs hp
      (List.any_eq_true.mpr ⟨b2, hb2, by simp [hkeq]⟩)

lemma userExcelStep_dup_of_create (cols : List String) (st1 st2 : ImportState LibraryUser)
    (idx : Nat) (r : List Cell) (u : LibraryUser)
    (h : userExcelStep cols st1 idx r =
      { st1 with db := st1.db ++ [u], created := st1.created + 1 })
    (hkey : ∃ u2 ∈ st2.db, u2.registration_number = u.registration_number) :
    ∃ e, userExcelStep cols st2 idx r = { st2 with errors := st2.errors ++ [e] } := by
  rcases userExcelStep_cases cols st1 idx r with ⟨heq, _⟩ | ⟨e, heq⟩ | ⟨heq, _, _, hs⟩
  · rw [h] at heq
    have hcre := congrArg (fun s => s.created) heq
    simp at hcre
  · rw [h] at heq
    have hcre := congrArg (fun s => s.created) heq
    simp at hcre
  · have h2 := h.symm.trans heq
    have hdb := congrArg (fun s => s.db) h2
    simp at hdb
    obtain ⟨u2, hu2, hkeq⟩ := hkey
    refine userExcelStep_dup cols st2 idx r (by simpa using hs)
      (List.any_eq_true.mpr ⟨u2, hu2, by simp [hkeq, hdb]⟩)

lemma finish_fst_errors {α : Type} (st : ImportState α) :
    st.finish.1.errors = st.errors := rfl

lemma finish_fst_created {α : Type} (st : ImportState α) :
    st.finish.1.created = st.created := rfl

lemma finish_snd {α : Type} (st : ImportState α) : st.finish.2 = st.db := rfl

lemma bookProcessTxt_ok_of_no_errors (content : String) (db : List Book)
    (h : (bookProcessTxt content db).1.errors = []) :
    2 ≤ (pySplit '\n' (pyStrip content)).length ∧
    pySplit '|' (pyStrip ((pySplit '\n' (pyStrip content)).getD 0 ""))
      = bookExpectedFields := by
  unfold bookProcessTxt at h
  simp only [] at h
  split_ifs at h with h1 h2
  exact ⟨by omega, not_not.mp h2⟩

lemma userProcessTxt_ok_of_no_errors (content : String) (db : List LibraryUser)
    (h : (userProcessTxt content db).1.errors = []) :
    2 ≤ (pySplit '\n' (pyStrip content)).length ∧
    pySplit '|' (pyStrip ((pySplit '\n' (pyStrip content)).getD 0 ""))
      = userExpectedFields := by
  unfold userProcessTxt at h
  simp only [] at h
  split_ifs at h with h1 h2
  exact ⟨by omega, not_not.mp h2⟩

lemma bookProcessTxt_run (content : String) (db : List Book)
    (hlen : 2 ≤ (pySplit '\n' (pyStrip content)).length)
    (hhdr : pySplit '|' (pyStrip ((pySplit '\n' (pyStrip content)).getD 0 ""))
      = bookExpectedFields) :
    bookProcessTxt content db =
      (bookTxtLoop 2 (pySplit '\n' (pyStrip content)).tail
        { db := db, created := 0, errors := [] }).finish := by
  unfold bookProcessTxt
  simp only []
  rw [if_neg (by omega), if_neg (not_not_intro hhdr)]

lemma userProcessTxt_run (content : String) (db : List LibraryUser)
    (hlen : 2 ≤ (pySplit '\n' (pyStrip content)).length)
    (hhdr : pySplit '|' (pyStrip ((pySplit '\n' (pyStrip content)).getD 0 ""))
      = userExpectedFields) :
    userProcessTxt content db =
      (userTxtLoop 2 (pySplit '\n' (pyStrip content)).tail
        { db := db, created := 0, errors := [] }).finish := by
  unfold userProcessTxt
  simp only []
  rw [if_neg (by omega), if_neg (not_not_intro hhdr)]

lemma bookProcessExcel_ok_of_no_errors (input : Option DataFrame) (db : List Book)
    (h : (bookProcessExcel input db).1.errors = []) :
    ∃ df, input = some df ∧
      bookExpectedColumns.filter
        (fun c => ¬ (df.columns.map (fun c => pyStrip (pyLower c))).contains c) = [] := by
  cases input with
  | none =>
    unfold bookProcessExcel at h
    simp at h
  | some df =>
    unfold bookProcessExcel at h
    simp only [] at h
    split_ifs at h with h1
    exact ⟨df, rfl, not_not.mp h1⟩

lemma userProcessExcel_ok_of_no_errors (input : Option DataFrame) (db : List LibraryUser)
    (h : (userProcessExcel input db).1.errors = []) :
    ∃ df, input = some df ∧
      userExpectedColumns.filter
        (fun c => ¬ (df.columns.map (fun c => pyStrip (pyLower c))).contains c) = [] := by
  cases input with
  | none =>
    unfold userProcessExcel at h
    simp at h
  | some df =>
    unfold userProcessExcel at h
    simp only [] at h
    split_ifs at h with h1
    exact ⟨df, rfl, not_not.mp h1⟩

lemma bookProcessExcel_run (df : DataFrame) (db : List Book)
    (hmiss : bookExpectedColumns.filter
      (fun c => ¬ (df.columns.map (fun c => pyStrip (pyLower c))).contains c) = []) :
    bookProcessExcel (some df) db =
      (bookExcelLoop (df.columns.map (fun c => pyStrip (pyLower c))) 0 df.rows
        { db := db, created := 0, errors := [] }).finish := by
  unfold bookProcessExcel
  simp only []
  rw [if_neg (not_not_intro hmiss)]

lemma userProcessExcel_run (df : DataFrame) (db : List LibraryUser)
    (hmiss : userExpectedColumns.filter
      (fun c => ¬ (df.columns.map (fun c => pyStrip (pyLower c))).contains c) = []) :
    userProcessExcel (some df) db =
      (userExcelLoop (df.columns.map (fun c => pyStrip (pyLower c))) 0 df.rows
        { db := db, created := 0, errors := [] }).finish := by
  unfold userProcessExcel
  simp only []
  rw [if_neg (not_not_intro hmiss)]

/-- C7: a valid file whose first import emitted no errors, re-imported
against the store it produced, creates nothing: every candidate row the
first run committed now fails the uniqueness check, one error per
committed row, and the store is unchanged — in all four variants. -/
theorem C7_rerun_of_committed_file_creates_nothing :
    (∀ (content : String) (db0 : List Book),
      (bookProcessTxt content db0).1.errors = [] →
      (bookProcessTxt content (bookProcessTxt content db0).2).1.created = 0 ∧
      (bookProcessTxt content (bookProcessTxt content db0).2).1.errors.length =
        (bookProcessTxt content db0).1.created ∧
      (bookProcessTxt content (bookProcessTxt content db0).2).2 =
        (bookProcessTxt content db0).2) ∧
    (∀ (content : String) (db0 : List LibraryUser),
      (userProcessTxt content db0).1.errors = [] →
      (userProcessTxt content (userProcessTxt content db0).2).1.created = 0 ∧
      (userProcessTxt content (userProcessTxt content db0).2).1.errors.length =
        (userProcessTxt content db0).1.created ∧
      (userProcessTxt content (userProcessTxt content db0).2).2 =
        (userProcessTxt content db0).2) ∧
    (∀ (input : Option DataFrame) (db0 : List Book),
      (bookProcessExcel input db0).1.errors = [] →
      (bookProcessExcel input (bookProcessExcel input db0).2).1.created = 0 ∧
      (bookProcessExcel input (bookProcessExcel input db0).2).1.errors.length =
        (bookProcessExcel input db0).1.created ∧
      (bookProcessExcel input (bookProcessExcel input db0).2).2 =
        (bookProcessExcel input db0).2) ∧
    (∀ (input : Option DataFrame) (db0 : List LibraryUser),
      (userProcessExcel input db0).1.errors = [] →
      (userProcessExcel input (userProcessExcel input db0).2).1.created = 0 ∧
      (userProcessExcel input (userProcessExcel input db0).2).1.errors.length =
        (userProcessExcel input db0).1.created ∧
      (userProcessExcel input (userProcessExcel input db0).2).2 =
        (userProcessExcel input db0).2) := by
  refine ⟨?_, ?_, ?_, ?_⟩
  · intro content db0 hErr
    obtain ⟨hlen, hhdr⟩ := bookProcessTxt_ok_of_no_errors content db0 hErr
    have hrun1 := bookProcessTxt_run content db0 hlen hhdr
    rw [hrun1] at hErr
    simp only [finish_fst_errors] at hErr
    have hrun2 := bookProcessTxt_run content
      (bookTxtLoop 2 (pySplit '\n' (pyStrip content)).tail
        { db := db0, created := 0, errors := [] }).db hlen hhdr
    rw [hrun1]
    simp only [finish_fst_errors, finish_fst_created, finish_snd]
    rw [hrun2]
    simp only [finish_fst_errors, finish_fst_created, finish_snd]
    simp only [bookTxtLoop] at hErr ⊢
    obtain ⟨g1, g2, g3⟩ := importLoop_rerun Book.isbn bookTxtStep_grows
      bookTxtStep_shapes bookTxtStep_id_stable bookTxtStep_dup_of_create
      (pySplit '\n' (pyStrip content)).tail 2
      { db := db0, created := 0, errors := [] }
      { db := (importLoop bookTxtStep 2 (pySplit '\n' (pyStrip content)).tail
          { db := db0, created := 0, errors := [] }).db,
        created := 0, errors := [] }
      hErr (fun b hb => ⟨b, hb, rfl⟩)
    refine ⟨g1, ?_, g3⟩
    rw [g2]
    simp
  · intro content db0 hErr
    obtain ⟨hlen, hhdr⟩ := userProcessTxt_ok_of_no_errors content db0 hErr
    have hrun1 := userProcessTxt_run content db0 hlen hhdr
    rw [hrun1] at hErr
    simp only [finish_fst_errors] at hErr
    have hrun2 := userProcessTxt_run content
      (userTxtLoop 2 (pySplit '\n' (pyStrip content)).tail
        { db := db0, created := 0, errors := [] }).db hlen hhdr
    rw [hrun1]
    simp only [finish_fst_errors, finish_fst_created, finish_snd]
    rw [hrun2]
    simp only [finish_fst_errors, finish_fst_created, finish_snd]
    simp only [userTxtLoop] at hErr ⊢
    obtain ⟨g1, g2, g3⟩ := importLoop_rerun LibraryUser.registration_number
      userTxtStep_grows userTxtStep_shapes userTxtStep_id_stable userTxtStep_dup_of_create
      (pySplit '\n' (pyStrip content)).tail 2
      { db := db0, created := 0, errors := [] }
      { db := (importLoop userTxtStep 2 (pySplit '\n' (pyStrip content)).tail
          { db := db0, created := 0, errors := [] }).db,
        created := 0, errors := [] }
      hErr (fun u hu => ⟨u, hu, rfl⟩)
    refine ⟨g1, ?_, g3⟩
    rw [g2]
    simp
  · intro input db0 hErr
    obtain ⟨df, hin, hmiss⟩ := bookProcessExcel_ok_of_no_errors input db0 hErr
    subst hin
    have hrun1 := bookProcessExcel_run df db0 hmiss
    rw [hrun1] at hErr
    simp only [finish_fst_errors] at hErr
    have hrun2 := bookProcessExcel_run df
      (bookExcelLoop (df.columns.map (fun c => pyStrip (pyLower c))) 0 df.rows
        { db := db0, created := 0, errors := [] }).db hmiss
    rw [hrun1]
    simp only [finish_fst_errors, finish_fst_created, finish_snd]
    rw [hrun2]
    simp only [finish_fst_errors, finish_fst_created, finish_snd]
    simp only [bookExcelLoop] at hErr ⊢
    obtain ⟨g1, g2, g3⟩ := importLoop_rerun Book.isbn
      (bookExcelStep_grows (df.columns.map (fun c => pyStrip (pyLower c))))
      (bookExcelStep_shapes (df.columns.map (fun c => pyStrip (pyLower c))))
      (bookExcelStep_id_stable (df.columns.map (fun c => pyStrip (pyLower c))))
      (bookExcelStep_dup_of_create (df.columns.map (fun c => pyStrip (pyLower c))))
      df.rows 0
      { db := db0, created := 0, errors := [] }
      { db := (importLoop (bookExcelStep (df.columns.map (fun c => pyStrip (pyLower c))))
          0 df.rows { db := db0, created := 0, errors := [] }).db,
        created := 0, errors := [] }
      hErr (fun b hb => ⟨b, hb, rfl⟩)
    refine ⟨g1, ?_, g3⟩
    rw [g2]
    simp
  · intro input db0 hErr
    obtain ⟨df, hin, hmiss⟩ := userProcessExcel_ok_of_no_errors input db0 hErr
    subst hin
    have hrun1 := userProcessExcel_run df db0 hmiss
    rw [hrun1] at hErr
    simp only [finish_fst_errors] at hErr
    have hrun2 := userProcessExcel_run df
      (userExcelLoop (df.columns.map (fun c => pyStrip (pyLower c))) 0 df.rows
        { db := db0, created := 0, errors := [] }).db hmiss
    rw [hrun1]
    simp only [finish_fst_errors, finish_fst_created, finish_snd]
    rw [hrun2]
    simp only [finish_fst_errors, finish_fst_created, finish_snd]
    simp only [userExcelLoop] at hErr ⊢
    obtain ⟨g1, g2, g3⟩ := importLoop_rerun LibraryUser.registration_number
      (userExcelStep_grows (df.columns.map (fun c => pyStrip (pyLower c))))
      (userExcelStep_shapes (df.columns.map (fun c => pyStrip (pyLower c))))
      (userExcelStep_id_stable (df.columns.map (fun c => pyStrip (pyLower c))))
      (userExcelStep_dup_of_create (df.columns.map (fun c => pyStrip (pyLower c))))
      df.rows 0
      { db := db0, created := 0, errors := [] }
      { db := (importLoop (userExcelStep (df.columns.map (fun c => pyStrip (pyLower c))))
          0 df.rows { db := db0, created := 0, errors := [] }).db,
        created := 0, errors := [] }
      hErr (fun u hu => ⟨u, hu, rfl⟩)
    refine ⟨g1, ?_, g3⟩
    rw [g2]
    simp

/-- C7 witness: a clean one-row Book import re-run against its own
result. -/
theorem C7_rerun_of_committed_file_creates_nothing_check :
    (bookProcessTxt
      "title|author|isbn|publisher|publication_year|category|quantity\nA|B|111|P|1999|F|2"
      []).1.errors = [] ∧
    (bookProcessTxt
      "title|author|isbn|publisher|publication_year|category|quantity\nA|B|111|P|1999|F|2"
      (bookProcessTxt
        "title|author|isbn|publisher|publication_year|category|quantity\nA|B|111|P|1999|F|2"
        []).2).1.created = 0 ∧
    (bookProcessTxt
      "title|author|isbn|publisher|publication_year|category|quantity\nA|B|111|P|1999|F|2"
      (bookProcessTxt
        "title|author|isbn|publisher|publication_year|category|quantity\nA|B|111|P|1999|F|2"
        []).2).1.errors.length =
      (bookProcessTxt
        "title|author|isbn|publisher|publication_year|category|quantity\nA|B|111|P|1999|F|2"
        []).1.created := by
  refine ⟨by decide, ?_, ?_⟩
  · exact (C7_rerun_of_committed_file_creates_nothing.1
      "title|author|isbn|publisher|publication_year|category|quantity\nA|B|111|P|1999|F|2"
      [] (by decide)).1
  · exact (C7_rerun_of_committed_file_creates_nothing.1
      "title|author|isbn|publisher|publication_year|category|quantity\nA|B|111|P|1999|F|2"
      [] (by decide)).2.1


/-! ### Counting the rows (claim C1) -/

lemma strBeqComm (a b : String) : (a == b) = (b == a) := by
  by_cases h : a = b
  · subst h; rfl
  · have h2 : ¬ b = a := fun hh => h hh.symm
    simp [h, h2]

lemma strBeqDecide (a b : String) : (a == b) = decide (a = b) := by
  by_cases h : a = b <;> simp [h]

lemma specCounts_nil {α σ κ : Type} (f : σ → α → RowClass κ) (upd : σ → κ → σ) (s : σ) :
    specCounts f upd s [] = (0, 0) := rfl

lemma specCounts_skip {α σ κ : Type} {f : σ → α → RowClass κ} {upd : σ → κ → σ}
    {s : σ} {r : α} (rest : List α) (h : f s r = .skipped) :
    specCounts f upd s (r :: rest) = specCounts f upd s rest := by
  simp [specCounts, h]

lemma specCounts_fail {α σ κ : Type} {f : σ → α → RowClass κ} {upd : σ → κ → σ}
    {s : σ} {r : α} (rest : List α) (h : f s r = .failed) :
    specCounts f upd s (r :: rest) =
      ((specCounts f upd s rest).1, (specCounts f upd s rest).2 + 1) := by
  simp [specCounts, h]

lemma specCounts_pass {α σ κ : Type} {f : σ → α → RowClass κ} {upd : σ → κ → σ}
    {s : σ} {r : α} {k : κ} (rest : List α) (h : f s r = .passed k) :
    specCounts f upd s (r :: rest) =
      ((specCounts f upd (upd s k) rest).1 + 1, (specCounts f upd (upd s k) rest).2) := by
  simp [specCounts, h]

lemma bookTxtStep_badcount (st : ImportState Book) (idx : Nat) (line : String)
    (hb : pyStrip line ≠ "") (hm : (pySplit '|' (pyStrip line)).length ≠ 7) :
    ∃ e, bookTxtStep st idx line = { st with errors := st.errors ++ [e] } := by
  unfold bookTxtStep
  rw [if_neg hb]
  simp only []
  rw [if_pos hm]
  exact ⟨_, rfl⟩

lemma userTxtStep_badcount (st : ImportState LibraryUser) (idx : Nat) (line : String)
    (hb : pyStrip line ≠ "") (hm : (pySplit '|' (pyStrip line)).length ≠ 6) :
    ∃ e, userTxtStep st idx line = { st with errors := st.errors ++ [e] } := by
  unfold userTxtStep
  rw [if_neg hb]
  simp only []
  rw [if_pos hm]
  exact ⟨_, rfl⟩

lemma bookTxtStep_coerce_fail (st : ImportState Book) (idx : Nat) (line : String)
    (hb : pyStrip line ≠ "") (hm : (pySplit '|' (pyStrip line)).length = 7)
    (hp : bookTxtParse line = none) :
    ∃ e, bookTxtStep st idx line = { st with errors := st.errors ++ [e] } := by
  unfold bookTxtStep
  rw [if_neg hb]
  simp only []
  rw [if_neg (by omega), hp]
  exact ⟨_, rfl⟩

lemma bookTxtStep_create (st : ImportState Book) (idx : Nat) (line : String) (b : Book)
    (hb : pyStrip line ≠ "") (hm : (pySplit '|' (pyStrip line)).length = 7)
    (hp : bookTxtParse line = some b)
    (hfresh : st.db.any (fun x => x.isbn == b.isbn) = false) :
    bookTxtStep st idx line = { st with db := st.db ++ [b], created := st.created + 1 } := by
  unfold bookTxtStep
  rw [if_neg hb]
  simp only []
  rw [if_neg (by omega), hp]
  simp only []
  rw [if_neg (by simp [hfresh])]

lemma userTxtStep_email_dup (st : ImportState LibraryUser) (idx : Nat) (line : String)
    (hb : pyStrip line ≠ "") (hm : (pySplit '|' (pyStrip line)).length = 6)
    (hreg : st.db.any (fun x =>
      x.registration_number == (userTxtRowData line).registration_number) = false)
    (hem : st.db.any (fun x => x.email == (userTxtRowData line).email) = true) :
    ∃ e, userTxtStep st idx line = { st with errors := st.errors ++ [e] } := by
  unfold userTxtStep
  rw [if_neg hb]
  simp only []
  rw [if_neg (by omega), if_neg (by simp [hreg]), if_pos hem]
  exact ⟨_, rfl⟩

lemma userTxtStep_create (st : ImportState LibraryUser) (idx : Nat) (line : String)
    (hb : pyStrip line ≠ "") (hm : (pySplit '|' (pyStrip line)).length = 6)
    (hreg : st.db.any (fun x =>
      x.registration_number == (userTxtRowData line).registration_number) = false)
    (hem : st.db.any (fun x => x.email == (userTxtRowData line).email) = false) :
    userTxtStep st idx line =
      { st with db := st.db ++ [userTxtRowData line], created := st.created + 1 } := by
  unfold userTxtStep
  rw [if_neg hb]
  simp only []
  rw [if_neg (by omega), if_neg (by simp [hreg]), if_neg (by simp [hem])]

lemma bookExcelStep_coerce_fail (cols : List String) (st : ImportState Book) (idx : Nat)
    (row : List Cell)
    (hs : ((cellAt cols row "title").isna || (cellAt cols row "isbn").isna) = false)
    (hp : bookExcelParse cols row = none) :
    ∃ e, bookExcelStep cols st idx row = { st with errors := st.errors ++ [e] } := by
  unfold bookExcelStep
  rw [if_neg (by simp [hs])]
  simp only []
  rw [hp]
  exact ⟨_, rfl⟩

lemma bookExcelStep_create (cols : List String) (st : ImportState Book) (idx : Nat)
    (row : List Cell) (b : Book)
    (hs : ((cellAt cols row "title").isna || (cellAt cols row "isbn").isna) = false)
    (hp : bookExcelParse cols row = some b)
    (hfresh : st.db.any (fun x => x.isbn == b.isbn) = false) :
    bookExcelStep cols st idx row =
      { st with db := st.db ++ [b], created := st.created + 1 } := by
  unfold bookExcelStep
  rw [if_neg (by simp [hs])]
  simp only []
  rw [hp]
  simp only []
  rw [if_neg (by simp [hfresh])]

lemma userExcelStep_email_dup (cols : List String) (st : ImportState LibraryUser)
    (idx : Nat) (row : List Cell)
    (hs : ((cellAt cols row "full_name").isna ||
      (cellAt cols row "registration_number").isna) = false)
    (hreg : st.db.any (fun x =>
      x.registration_number == (userExcelRowData cols row).registration_number) = false)
    (hem : st.db.any (fun x => x.email == (userExcelRowData cols row).email) = true) :
    ∃ e, userExcelStep cols st idx row = { st with errors := st.errors ++ [e] } := by
  unfold userExcelStep
  rw [if_neg (by simp [hs])]
  simp only []
  rw [if_neg (by simp [hreg]), if_pos hem]
  exact ⟨_, rfl⟩

lemma userExcelStep_create (cols : List String) (st : ImportState LibraryUser)
    (idx : Nat) (row : List Cell)
    (hs : ((cellAt cols row "full_name").isna ||
      (cellAt cols row "registration_number").isna) = false)
    (hreg : st.db.any (fun x =>
      x.registration_number == (userExcelRowData cols row).registration_number) = false)
    (hem : st.db.any (fun x => x.email == (userExcelRowData cols row).email) = false) :
    userExcelStep cols st idx row =
      { st with db := st.db ++ [userExcelRowData cols row], created := st.created + 1 } := by
  unfold userExcelStep
  rw [if_neg (by simp [hs])]
  simp only []
  rw [if_neg (by simp [hreg]), if_neg (by simp [hem])]



lemma keyInvPush {α : Type} (key : α → String) (db : List α) (keys : List String)
    (b : α) (hk : ∀ k, db.any (fun x => key x == k) = keys.contains k) :
    ∀ k, (db ++ [b]).any (fun x => key x == k) = (key b :: keys).contains k := by
  intro k
  rw [List.any_append, hk k]
  simp only [List.any_cons, List.any_nil, Bool.or_false, List.contains_cons]
  rw [strBeqComm (key b) k, Bool.or_comm]

lemma keyInvInit {α : Type} (key : α → String) (db : List α) :
    ∀ k, db.any (fun x => key x == k) = (db.map key).contains k := by
  intro k
  induction db with
  | nil => rfl
  | cons a t ih =>
    simp only [List.any_cons, List.map_cons, List.contains_cons]
    rw [ih, strBeqComm (key a) k]

lemma bookTxtParse_none_iff (line : String) :
    bookTxtParse line = none ↔
      ((pyStrip ((pySplit '|' (pyStrip line)).getD 4 "") = "" ||
          (pyParseInt (pyStrip ((pySplit '|' (pyStrip line)).getD 4 ""))).isSome) &&
        (pyParseInt (pyStrip ((pySplit '|' (pyStrip line)).getD 6 ""))).isSome) = false := by
  unfold bookTxtParse
  simp only [List.getD_eq_getElem?_getD]
  by_cases hy : pyStrip ((pySplit '|' (pyStrip line))[4]?.getD "") = ""
  · rw [if_pos hy]
    cases hq : pyParseInt (pyStrip ((pySplit '|' (pyStrip line))[6]?.getD "")) <;>
      simp [hy]
  · rw [if_neg hy]
    cases hpy : pyParseInt (pyStrip ((pySplit '|' (pyStrip line))[4]?.getD "")) <;>
      cases hq : pyParseInt (pyStrip ((pySplit '|' (pyStrip line))[6]?.getD "")) <;>
      simp [hy]


lemma bookTxtParse_isbn (line : String) (b : Book) (hp : bookTxtParse line = some b) :
    b.isbn = pyStrip ((pySplit '|' (pyStrip line)).getD 2 "") := by
  unfold bookTxtParse at hp
  simp only [List.getD_eq_getElem?_getD] at hp ⊢
  by_cases hy : pyStrip ((pySplit '|' (pyStrip line))[4]?.getD "") = ""
  · rw [if_pos hy] at hp
    cases hq : pyParseInt (pyStrip ((pySplit '|' (pyStrip line))[6]?.getD "")) with
    | none =>
      rw [hq] at hp
      simp at hp
    | some q =>
      rw [hq] at hp
      simp only [Option.some.injEq] at hp
      rw [← hp]
  · rw [if_neg hy] at hp
    cases hpy : pyParseInt (pyStrip ((pySplit '|' (pyStrip line))[4]?.getD "")) with
    | none =>
      rw [hpy] at hp
      simp at hp
    | some y =>
      rw [hpy] at hp
      cases hq : pyParseInt (pyStrip ((pySplit '|' (pyStrip line))[6]?.getD "")) with
      | none =>
        rw [hq] at hp
        simp at hp
      | some q =>
        rw [hq] at hp
        simp only [Option.map_some', Option.some.injEq] at hp
        rw [← hp]

lemma bookExcelParse_none_iff (cols : List String) (row : List Cell) :
    bookExcelParse cols row = none ↔
      (((cellAt cols row "publication_year").isna ||
          (cellAt cols row "publication_year").pyInt.isSome) &&
        (cellAt cols row "quantity").pyInt.isSome) = false := by
  unfold bookExcelParse
  simp only []
  by_cases hy : (cellAt cols row "publication_year").isna = true
  · rw [if_pos hy]
    cases hq : (cellAt cols row "quantity").pyInt <;> simp [hy]
  · rw [if_neg hy]
    cases hpy : (cellAt cols row "publication_year").pyInt <;>
      cases hq : (cellAt cols row "quantity").pyInt <;>
      simp [hy]

lemma bookExcelParse_isbn (cols : List String) (row : List Cell) (b : Book)
    (hp : bookExcelParse cols row = some b) :
    b.isbn = pyStrip (cellAt cols row "isbn").pyStr := by
  unfold bookExcelParse at hp
  simp only [] at hp
  by_cases hy : (cellAt cols row "publication_year").isna = true
  · rw [if_pos hy] at hp
    cases hq : (cellAt cols row "quantity").pyInt with
    | none =>
      rw [hq] at hp
      simp at hp
    | some q =>
      rw [hq] at hp
      simp only [Option.some.injEq] at hp
      rw [← hp]
  · rw [if_neg hy] at hp
    cases hpy : (cellAt cols row "publication_year").pyInt with
    | none =>
      rw [hpy] at hp
      simp at hp
    | some y =>
      rw [hpy] at hp
      cases hq : (cellAt cols row "quantity").pyInt with
      | none =>
        rw [hq] at hp
        simp at hp
      | some q =>
        rw [hq] at hp
        simp only [Option.map_some', Option.some.injEq] at hp
        rw [← hp]

lemma bookTxtLoop_matches_spec :
    ∀ (rows : List String) (idx : Nat) (st : ImportState Book) (keys : List String),
      (∀ k, st.db.any (fun x => x.isbn == k) = keys.contains k) →
      (importLoop bookTxtStep idx rows st).created =
        st.created + (specCounts specBookTxtClass pushKey keys rows).1 ∧
      (importLoop bookTxtStep idx rows st).errors.length =
        st.errors.length + (specCounts specBookTxtClass pushKey keys rows).2 := by
  intro rows
  induction rows with
  | nil =>
    intro idx st keys hk
    simp [importLoop_nil, specCounts_nil]
  | cons l rest ih =>
    intro idx st keys hk
    rw [importLoop_cons]
    by_cases hb : pyStrip l = ""
    · have hcls : specBookTxtClass keys l = RowClass.skipped := by
        unfold specBookTxtClass
        rw [if_pos hb]
      rw [specCounts_skip rest hcls, bookTxtStep_skip st idx l hb]
      exact ih (idx + 1) st keys hk
    · by_cases hm : (pySplit '|' (pyStrip l)).length = 7
      · rcases Option.eq_none_or_eq_some (bookTxtParse l) with hp | ⟨b, hp⟩
        · have hcond := (bookTxtParse_none_iff l).mp hp
          have hcls : specBookTxtClass keys l = RowClass.failed := by
            unfold specBookTxtClass
            rw [if_neg hb]
            simp only []
            rw [if_neg (by omega), hcond, Bool.false_and, if_neg (by simp)]
          obtain ⟨e, hstep⟩ := bookTxtStep_coerce_fail st idx l hb hm hp
          rw [specCounts_fail rest hcls, hstep]
          obtain ⟨g1, g2⟩ := ih (idx + 1) { st with errors := st.errors ++ [e] } keys hk
          refine ⟨by simpa using g1, ?_⟩
          rw [g2]
          simp only [List.length_append, List.length_cons, List.length_nil]
          omega
        · have hisbn := bookTxtParse_isbn l b hp
          have hcoerce : ((pyStrip ((pySplit '|' (pyStrip l)).getD 4 "") = "" ||
              (pyParseInt (pyStrip ((pySplit '|' (pyStrip l)).getD 4 ""))).isSome) &&
              (pyParseInt (pyStrip ((pySplit '|' (pyStrip l)).getD 6 ""))).isSome) = true := by
            cases hcb : ((pyStrip ((pySplit '|' (pyStrip l)).getD 4 "") = "" ||
              (pyParseInt (pyStrip ((pySplit '|' (pyStrip l)).getD 4 ""))).isSome) &&
              (pyParseInt (pyStrip ((pySplit '|' (pyStrip l)).getD 6 ""))).isSome) with
            | false => exact absurd ((bookTxtParse_none_iff l).mpr hcb) (by simp [hp])
            | true => rfl
          by_cases hd : st.db.any (fun x => x.isbn == b.isbn) = true
          · have hk2 : keys.contains (pyStrip ((pySplit '|' (pyStrip l)).getD 2 "")) = true := by
              rw [← hk, ← hisbn]
              exact hd
            have hcls : specBookTxtClass keys l = RowClass.failed := by
              unfold specBookTxtClass
              rw [if_neg hb]
              simp only []
              rw [if_neg (by omega), hcoerce, hk2, Bool.true_and]
              simp
            obtain ⟨e, hstep⟩ := bookTxtStep_dup st idx l b hb hm hp hd
            rw [specCounts_fail rest hcls, hstep]
            obtain ⟨g1, g2⟩ := ih (idx + 1) { st with errors := st.errors ++ [e] } keys hk
            refine ⟨by simpa using g1, ?_⟩
            rw [g2]
            simp only [List.length_append, List.length_cons, List.length_nil]
            omega
          · have hfresh : st.db.any (fun x => x.isbn == b.isbn) = false := by
              simpa using hd
            have hk2 : keys.contains (pyStrip ((pySplit '|' (pyStrip l)).getD 2 "")) = false := by
              rw [← hk, ← hisbn]
              exact hfresh
            have hcls : specBookTxtClass keys l =
                RowClass.passed (pyStrip ((pySplit '|' (pyStrip l)).getD 2 "")) := by
              unfold specBookTxtClass
              rw [if_neg hb]
              simp only []
              rw [if_neg (by omega), hcoerce, hk2, Bool.true_and]
              simp
            have hstep := bookTxtStep_create st idx l b hb hm hp hfresh
            rw [specCounts_pass rest hcls, hstep]
            have hk2' : ∀ k, (st.db ++ [b]).any (fun x => x.isbn == k) =
                (pushKey keys (pyStrip ((pySplit '|' (pyStrip l)).getD 2 ""))).contains k := by
              intro k
              have hpush := keyInvPush Book.isbn st.db keys b hk k
              rw [hisbn] at hpush
              exact hpush
            obtain ⟨g1, g2⟩ := ih (idx + 1)
              { st with db := st.db ++ [b], created := st.created + 1 }
              (pushKey keys (pyStrip ((pySplit '|' (pyStrip l)).getD 2 ""))) hk2'
            refine ⟨?_, by simpa using g2⟩
            rw [g1]
            simp only []
            omega
      · have hcls : specBookTxtClass keys l = RowClass.failed := by
          unfold specBookTxtClass
          rw [if_neg hb]
          simp only []
          rw [if_pos hm]
        obtain ⟨e, hstep⟩ := bookTxtStep_badcount st idx l hb hm
        rw [specCounts_fail rest hcls, hstep]
        obtain ⟨g1, g2⟩ := ih (idx + 1) { st with errors := st.errors ++ [e] } keys hk
        refine ⟨by simpa using g1, ?_⟩
        rw [g2]
        simp only [List.length_append, List.length_cons, List.length_nil]
        omega

lemma userTxtLoop_matches_spec :
    ∀ (rows : List String) (idx : Nat) (st : ImportState LibraryUser)
      (keys : List String × List String),
      (∀ k, st.db.any (fun x => x.registration_number == k) = keys.1.contains k) →
      (∀ k, st.db.any (fun x => x.email == k) = keys.2.contains k) →
      (importLoop userTxtStep idx rows st).created =
        st.created + (specCounts specUserTxtClass pushKeys keys rows).1 ∧
      (importLoop userTxtStep idx rows st).errors.length =
        st.errors.length + (specCounts specUserTxtClass pushKeys keys rows).2 := by
  intro rows
  induction rows with
  | nil =>
    intro idx st keys hkr hke
    simp [importLoop_nil, specCounts_nil]
  | cons l rest ih =>
    intro idx st keys hkr hke
    rw [importLoop_cons]
    have hregeq : (userTxtRowData l).registration_number =
        pyStrip ((pySplit '|' (pyStrip l)).getD 4 "") := rfl
    have hemeq : (userTxtRowData l).email =
        pyStrip ((pySplit '|' (pyStrip l)).getD 1 "") := rfl
    by_cases hb : pyStrip l = ""
    · have hcls : specUserTxtClass keys l = RowClass.skipped := by
        unfold specUserTxtClass
        rw [if_pos hb]
      rw [specCounts_skip rest hcls, userTxtStep_skip st idx l hb]
      exact ih (idx + 1) st keys hkr hke
    · by_cases hm : (pySplit '|' (pyStrip l)).length = 6
      · by_cases hr : st.db.any (fun x =>
            x.registration_number == (userTxtRowData l).registration_number) = true
        · have hk2 : keys.1.contains (pyStrip ((pySplit '|' (pyStrip l)).getD 4 "")) = true := by
            rw [← hkr, ← hregeq]
            exact hr
          have hcls : specUserTxtClass keys l = RowClass.failed := by
            unfold specUserTxtClass
            rw [if_neg hb]
            simp only []
            rw [if_neg (by omega), hk2]
            simp
          obtain ⟨e, hstep⟩ := userTxtStep_dup st idx l hb hm hr
          rw [specCounts_fail rest hcls, hstep]
          obtain ⟨g1, g2⟩ := ih (idx + 1) { st with errors := st.errors ++ [e] } keys hkr hke
          refine ⟨by simpa using g1, ?_⟩
          rw [g2]
          simp only [List.length_append, List.length_cons, List.length_nil]
          omega
        · have hrf : st.db.any (fun x =>
              x.registration_number == (userTxtRowData l).registration_number) = false := by
            simpa using hr
          have hk2 : keys.1.contains (pyStrip ((pySplit '|' (pyStrip l)).getD 4 "")) = false := by
            rw [← hkr, ← hregeq]
            exact hrf
          by_cases he : st.db.any (fun x => x.email == (userTxtRowData l).email) = true
          · have hk3 : keys.2.contains (pyStrip ((pySplit '|' (pyStrip l)).getD 1 "")) = true := by
              rw [← hke, ← hemeq]
              exact he
            have hcls : specUserTxtClass keys l = RowClass.failed := by
              unfold specUserTxtClass
              rw [if_neg hb]
              simp only []
              rw [if_neg (by omega), hk2, hk3]
              simp
            obtain ⟨e, hstep⟩ := userTxtStep_email_dup st idx l hb hm hrf he
            rw [specCounts_fail rest hcls, hstep]
            obtain ⟨g1, g2⟩ := ih (idx + 1) { st with errors := st.errors ++ [e] } keys hkr hke
            refine ⟨by simpa using g1, ?_⟩
            rw [g2]
            simp only [List.length_append, List.length_cons, List.length_nil]
            omega
          · have hef : st.db.any (fun x => x.email == (userTxtRowData l).email) = false := by
              simpa using he
            have hk3 : keys.2.contains (pyStrip ((pySplit '|' (pyStrip l)).getD 1 "")) = false := by
              rw [← hke, ← hemeq]
              exact hef
            have hcls : specUserTxtClass keys l =
                RowClass.passed (pyStrip ((pySplit '|' (pyStrip l)).getD 4 ""),
                  pyStrip ((pySplit '|' (pyStrip l)).getD 1 "")) := by
              unfold specUserTxtClass
              rw [if_neg hb]
              simp only []
              rw [if_neg (by omega), hk2, hk3]
              simp
            have hstep := userTxtStep_create st idx l hb hm hrf hef
            rw [specCounts_pass rest hcls, hstep]
            have hkr2 : ∀ k, (st.db ++ [userTxtRowData l]).any
                (fun x => x.registration_number == k) =
                (pushKeys keys (pyStrip ((pySplit '|' (pyStrip l)).getD 4 ""),
                  pyStrip ((pySplit '|' (pyStrip l)).getD 1 ""))).1.contains k := by
              intro k
              have hpush := keyInvPush LibraryUser.registration_number st.db keys.1
                (userTxtRowData l) hkr k
              rw [hregeq] at hpush
              exact hpush
            have hke2 : ∀ k, (st.db ++ [userTxtRowData l]).any (fun x => x.email == k) =
                (pushKeys keys (pyStrip ((pySplit '|' (pyStrip l)).getD 4 ""),
                  pyStrip ((pySplit '|' (pyStrip l)).getD 1 ""))).2.contains k := by
              intro k
              have hpush := keyInvPush LibraryUser.email st.db keys.2
                (userTxtRowData l) hke k
              rw [hemeq] at hpush
              exact hpush
            obtain ⟨g1, g2⟩ := ih (idx + 1)
              { st with db := st.db ++ [userTxtRowData l], created := st.created + 1 }
              (pushKeys keys (pyStrip ((pySplit '|' (pyStrip l)).getD 4 ""),
                pyStrip ((pySplit '|' (pyStrip l)).getD 1 ""))) hkr2 hke2
            refine ⟨?_, by simpa using g2⟩
            rw [g1]
            simp only []
            omega
      · have hcls : specUserTxtClass keys l = RowClass.failed := by
          unfold specUserTxtClass
          rw [if_neg hb]
          simp only []
          rw [if_pos hm]
        obtain ⟨e, hstep⟩ := userTxtStep_badcount st idx l hb hm
        rw [specCounts_fail rest hcls, hstep]
        obtain ⟨g1, g2⟩ := ih (idx + 1) { st with errors := st.errors ++ [e] } keys hkr hke
        refine ⟨by simpa using g1, ?_⟩
        rw [g2]
        simp only [List.length_append, List.length_cons, List.length_nil]
        omega

lemma bookExcelLoop_matches_spec (cols : List String) :
    ∀ (rows : List (List Cell)) (idx : Nat) (st : ImportState Book) (keys : List String),
      (∀ k, st.db.any (fun x => x.isbn == k) = keys.contains k) →
      (importLoop (bookExcelStep cols) idx rows st).created =
        st.created + (specCounts (specBookExcelClass cols) pushKey keys rows).1 ∧
      (importLoop (bookExcelStep cols) idx rows st).errors.length =
        st.errors.length + (specCounts (specBookExcelClass cols) pushKey keys rows).2 := by
  intro rows
  induction rows with
  | nil =>
    intro idx st keys hk
    simp [importLoop_nil, specCounts_nil]
  | cons row rest ih =>
    intro idx st keys hk
    rw [importLoop_cons]
    by_cases hs : ((cellAt cols row "title").isna || (cellAt cols row "isbn").isna) = true
    · have hcls : specBookExcelClass cols keys row = RowClass.skipped := by
        unfold specBookExcelClass
        rw [if_pos hs]
      rw [specCounts_skip rest hcls, bookExcelStep_skip cols st idx row hs]
      exact ih (idx + 1) st keys hk
    · have hsf : ((cellAt cols row "title").isna || (cellAt cols row "isbn").isna) = false := by
        simpa using hs
      rcases Option.eq_none_or_eq_some (bookExcelParse cols row) with hp | ⟨b, hp⟩
      · have hcond := (bookExcelParse_none_iff cols row).mp hp
        have hcls : specBookExcelClass cols keys row = RowClass.failed := by
          unfold specBookExcelClass
          rw [if_neg hs]
          simp only []
          rw [hcond, Bool.false_and, if_neg (by simp)]
        obtain ⟨e, hstep⟩ := bookExcelStep_coerce_fail cols st idx row hsf hp
        rw [specCounts_fail rest hcls, hstep]
        obtain ⟨g1, g2⟩ := ih (idx + 1) { st with errors := st.errors ++ [e] } keys hk
        refine ⟨by simpa using g1, ?_⟩
        rw [g2]
        simp only [List.length_append, List.length_cons, List.length_nil]
        omega
      · have hisbn := bookExcelParse_isbn cols row b hp
        have hcoerce : (((cellAt cols row "publication_year").isna ||
            (cellAt cols row "publication_year").pyInt.isSome) &&
            (cellAt cols row "quantity").pyInt.isSome) = true := by
          cases hcb : (((cellAt cols row "publication_year").isna ||
              (cellAt cols row "publication_year").pyInt.isSome) &&
              (cellAt cols row "quantity").pyInt.isSome) with
          | false => exact absurd ((bookExcelParse_none_iff cols row).mpr hcb) (by simp [hp])
          | true => rfl
        by_cases hd : st.db.any (fun x => x.isbn == b.isbn) = true
        · have hk2 : keys.contains (pyStrip (cellAt cols row "isbn").pyStr) = true := by
            rw [← hk, ← hisbn]
            exact hd
          have hcls : specBookExcelClass cols keys row = RowClass.failed := by
            unfold specBookExcelClass
            rw [if_neg hs]
            simp only []
            rw [hcoerce, hk2, Bool.true_and]
            simp
          obtain ⟨e, hstep⟩ := bookExcelStep_dup cols st idx row b hsf hp hd
          rw [specCounts_fail rest hcls, hstep]
          obtain ⟨g1, g2⟩ := ih (idx + 1) { st with errors := st.errors ++ [e] } keys hk
          refine ⟨by simpa using g1, ?_⟩
          rw [g2]
          simp only [List.length_append, List.length_cons, List.length_nil]
          omega
        · have hfresh : st.db.any (fun x => x.isbn == b.isbn) = false := by
            simpa using hd
          have hk2 : keys.contains (pyStrip (cellAt cols row "isbn").pyStr) = false := by
            rw [← hk, ← hisbn]
            exact hfresh
          have hcls : specBookExcelClass cols keys row =
              RowClass.passed (pyStrip (cellAt cols row "isbn").pyStr) := by
            unfold specBookExcelClass
            rw [if_neg hs]
            simp only []
            rw [hcoerce, hk2, Bool.true_and]
            simp
          have hstep := bookExcelStep_create cols st idx row b hsf hp hfresh
          rw [specCounts_pass rest hcls, hstep]
          have hk2' : ∀ k, (st.db ++ [b]).any (fun x => x.isbn == k) =
              (pushKey keys (pyStrip (cellAt cols row "isbn").pyStr)).contains k := by
            intro k
            have hpush := keyInvPush Book.isbn st.db keys b hk k
            rw [hisbn] at hpush
            exact hpush
          obtain ⟨g1, g2⟩ := ih (idx + 1)
            { st with db := st.db ++ [b], created := st.created + 1 }
            (pushKey keys (pyStrip (cellAt cols row "isbn").pyStr)) hk2'
          refine ⟨?_, by simpa using g2⟩
          rw [g1]
          simp only []
          omega

lemma userExcelLoop_matches_spec (cols : List String) :
    ∀ (rows : List (List Cell)) (idx : Nat) (st : ImportState LibraryUser)
      (keys : List String × List String),
      (∀ k, st.db.any (fun x => x.registration_number == k) = keys.1.contains k) →
      (∀ k, st.db.any (fun x => x.email == k) = keys.2.contains k) →
      (importLoop (userExcelStep cols) idx rows st).created =
        st.created + (specCounts (specUserExcelClass cols) pushKeys keys rows).1 ∧
      (importLoop (userExcelStep cols) idx rows st).errors.length =
        st.errors.length + (specCounts (specUserExcelClass cols) pushKeys keys rows).2 := by
  intro rows
  induction rows with
  | nil =>
    intro idx st keys hkr hke
    simp [importLoop_nil, specCounts_nil]
  | cons row rest ih =>
    intro idx st keys hkr hke
    rw [importLoop_cons]
    have hregeq : (userExcelRowData cols row).registration_number =
        pyStrip (cellAt cols row "registration_number").pyStr := rfl
    have hemeq : (userExcelRowData cols row).email =
        pyStrip (cellAt cols row "email").pyStr := rfl
    by_cases hs : ((cellAt cols row "full_name").isna ||
        (cellAt cols row "registration_number").isna) = true
    · have hcls : specUserExcelClass cols keys row = RowClass.skipped := by
        unfold specUserExcelClass
        rw [if_pos hs]
      rw [specCounts_skip rest hcls, userExcelStep_skip cols st idx row hs]
      exact ih (idx + 1) st keys hkr hke
    · have hsf : ((cellAt cols row "full_name").isna ||
          (cellAt cols row "registration_number").isna) = false := by
        simpa using hs
      by_cases hr : st.db.any (fun x =>
          x.registration_number == (userExcelRowData cols row).registration_number) = true
      · have hk2 : keys.1.contains (pyStrip (cellAt cols row "registration_number").pyStr)
            = true := by
          rw [← hkr, ← hregeq]
          exact hr
        have hcls : specUserExcelClass cols keys row = RowClass.failed := by
          unfold specUserExcelClass
          rw [if_neg hs]
          simp only []
          rw [hk2]
          simp
        obtain ⟨e, hstep⟩ := userExcelStep_dup cols st idx row hsf hr
        rw [specCounts_fail rest hcls, hstep]
        obtain ⟨g1, g2⟩ := ih (idx + 1) { st with errors := st.errors ++ [e] } keys hkr hke
        refine ⟨by simpa using g1, ?_⟩
        rw [g2]
        simp only [List.length_append, List.length_cons, List.length_nil]
        omega
      · have hrf : st.db.any (fun x =>
            x.registration_number == (userExcelRowData cols row).registration_number)
            = false := by
          simpa using hr
        have hk2 : keys.1.contains (pyStrip (cellAt cols row "registration_number").pyStr)
            = false := by
          rw [← hkr, ← hregeq]
          exact hrf
        by_cases he : st.db.any (fun x =>
            x.email == (userExcelRowData cols row).email) = true
        · have hk3 : keys.2.contains (pyStrip (cellAt cols row "email").pyStr) = true := by
            rw [← hke, ← hemeq]
            exact he
          have hcls : specUserExcelClass cols keys row = RowClass.failed := by
            unfold specUserExcelClass
            rw [if_neg hs]
            simp only []
            rw [hk2, hk3]
            simp
          obtain ⟨e, hstep⟩ := userExcelStep_email_dup cols st idx row hsf hrf he
          rw [specCounts_fail rest hcls, hstep]
          obtain ⟨g1, g2⟩ := ih (idx + 1) { st with errors := st.errors ++ [e] } keys hkr hke
          refine ⟨by simpa using g1, ?_⟩
          rw [g2]
          simp only [List.length_append, List.length_cons, List.length_nil]
          omega
        · have hef : st.db.any (fun x =>
              x.email == (userExcelRowData cols row).email) = false := by
            simpa using he
          have hk3 : keys.2.contains (pyStrip (cellAt cols row "email").pyStr) = false := by
            rw [← hke, ← hemeq]
            exact hef
          have hcls : specUserExcelClass cols keys row =
              RowClass.passed (pyStrip (cellAt cols row "registration_number").pyStr,
                pyStrip (cellAt cols row "email").pyStr) := by
            unfold specUserExcelClass
            rw [if_neg hs]
            simp only []
            rw [hk2, hk3]
            simp
          have hstep := userExcelStep_create cols st idx row hsf hrf hef
          rw [specCounts_pass rest hcls, hstep]
          have hkr2 : ∀ k, (st.db ++ [userExcelRowData cols row]).any
              (fun x => x.registration_number == k) =
              (pushKeys keys (pyStrip (cellAt cols row "registration_number").pyStr,
                pyStrip (cellAt cols row "email").pyStr)).1.contains k := by
            intro k
            have hpush := keyInvPush LibraryUser.registration_number st.db keys.1
              (userExcelRowData cols row) hkr k
            rw [hregeq] at hpush
            exact hpush
          have hke2 : ∀ k, (st.db ++ [userExcelRowData cols row]).any
              (fun x => x.email == k) =
              (pushKeys keys (pyStrip (cellAt cols row "registration_number").pyStr,
                pyStrip (cellAt cols row "email").pyStr)).2.contains k := by
            intro k
            have hpush := keyInvPush LibraryUser.email st.db keys.2
              (userExcelRowData cols row) hke k
            rw [hemeq] at hpush
            exact hpush
          obtain ⟨g1, g2⟩ := ih (idx + 1)
            { st with db := st.db ++ [userExcelRowData cols row], created := st.created + 1 }
            (pushKeys keys (pyStrip (cellAt cols row "registration_number").pyStr,
              pyStrip (cellAt cols row "email").pyStr)) hkr2 hke2
          refine ⟨?_, by simpa using g2⟩
          rw [g1]
          simp only []
          omega

/-- C1: for every import invocation whose header (text) or columns
(tabular) validate, `created` equals the number of candidate rows the
spec-side classification marks as passing decode, coercion and the
uniqueness-constraint check against the evolving store, and the length of
`errors` equals the number it marks as failing (wrong field count
included), while blank lines and missing-primary rows count for
neither. -/
theorem C1_created_and_errors_count_rows :
    (∀ (content : String) (db : List Book) (hdr : String) (rest : List String),
      pySplit '\n' (pyStrip content) = hdr :: rest → rest ≠ [] →
      pySplit '|' (pyStrip hdr) = bookExpectedFields →
      (bookProcessTxt content db).1.created =
        (specCounts specBookTxtClass pushKey (db.map Book.isbn) rest).1 ∧
      (bookProcessTxt content db).1.errors.length =
        (specCounts specBookTxtClass pushKey (db.map Book.isbn) rest).2) ∧
    (∀ (content : String) (db : List LibraryUser) (hdr : String) (rest : List String),
      pySplit '\n' (pyStrip content) = hdr :: rest → rest ≠ [] →
      pySplit '|' (pyStrip hdr) = userExpectedFields →
      (userProcessTxt content db).1.created =
        (specCounts specUserTxtClass pushKeys
          (db.map LibraryUser.registration_number, db.map LibraryUser.email) rest).1 ∧
      (userProcessTxt content db).1.errors.length =
        (specCounts specUserTxtClass pushKeys
          (db.map LibraryUser.registration_number, db.map LibraryUser.email) rest).2) ∧
    (∀ (df : DataFrame) (db : List Book),
      bookExpectedColumns.filter
        (fun c => ¬ (df.columns.map (fun c => pyStrip (pyLower c))).contains c) = [] →
      (bookProcessExcel (some df) db).1.created =
        (specCounts (specBookExcelClass (df.columns.map (fun c => pyStrip (pyLower c))))
          pushKey (db.map Book.isbn) df.rows).1 ∧
      (bookProcessExcel (some df) db).1.errors.length =
        (specCounts (specBookExcelClass (df.columns.map (fun c => pyStrip (pyLower c))))
          pushKey (db.map Book.isbn) df.rows).2) ∧
    (∀ (df : DataFrame) (db : List LibraryUser),
      userExpectedColumns.filter
        (fun c => ¬ (df.columns.map (fun c => pyStrip (pyLower c))).contains c) = [] →
      (userProcessExcel (some df) db).1.created =
        (specCounts (specUserExcelClass (df.columns.map (fun c => pyStrip (pyLower c))))
          pushKeys (db.map LibraryUser.registration_number, db.map LibraryUser.email)
          df.rows).1 ∧
      (userProcessExcel (some df) db).1.errors.length =
        (specCounts (specUserExcelClass (df.columns.map (fun c => pyStrip (pyLower c))))
          pushKeys (db.map LibraryUser.registration_number, db.map LibraryUser.email)
          df.rows).2) := by
  refine ⟨?_, ?_, ?_, ?_⟩
  · intro content db hdr rest h1 h2 h3
    have hlen : 2 ≤ (pySplit '\n' (pyStrip content)).length := by
      rw [h1]
      cases rest with
      | nil => exact absurd rfl h2
      | cons a t => simp only [List.length_cons]; omega
    have hhdr : pySplit '|' (pyStrip ((pySplit '\n' (pyStrip content)).getD 0 ""))
        = bookExpectedFields := by
      rw [h1]
      simpa using h3
    rw [bookProcessTxt_run content db hlen hhdr, finish_fst_created, finish_fst_errors,
      h1, List.tail_cons]
    simp only [bookTxtLoop]
    have hmain := bookTxtLoop_matches_spec rest 2 { db := db, created := 0, errors := [] }
      (db.map Book.isbn) (keyInvInit Book.isbn db)
    constructor
    · rw [hmain.1]
      simp
    · rw [hmain.2]
      simp
  · intro content db hdr rest h1 h2 h3
    have hlen : 2 ≤ (pySplit '\n' (pyStrip content)).length := by
      rw [h1]
      cases rest with
      | nil => exact absurd rfl h2
      | cons a t => simp only [List.length_cons]; omega
    have hhdr : pySplit '|' (pyStrip ((pySplit '\n' (pyStrip content)).getD 0 ""))
        = userExpectedFields := by
      rw [h1]
      simpa using h3
    rw [userProcessTxt_run content db hlen hhdr, finish_fst_created, finish_fst_errors,
      h1, List.tail_cons]
    simp only [userTxtLoop]
    have hmain := userTxtLoop_matches_spec rest 2 { db := db, created := 0, errors := [] }
      (db.map LibraryUser.registration_number, db.map LibraryUser.email)
      (keyInvInit LibraryUser.registration_number db) (keyInvInit LibraryUser.email db)
    constructor
    · rw [hmain.1]
      simp
    · rw [hmain.2]
      simp
  · intro df db hmiss
    rw [bookProcessExcel_run df db hmiss, finish_fst_created, finish_fst_errors]
    simp only [bookExcelLoop]
    have hmain := bookExcelLoop_matches_spec (df.columns.map (fun c => pyStrip (pyLower c)))
      df.rows 0 { db := db, created := 0, errors := [] }
      (db.map Book.isbn) (keyInvInit Book.isbn db)
    constructor
    · rw [hmain.1]
      simp
    · rw [hmain.2]
      simp
  · intro df db hmiss
    rw [userProcessExcel_run df db hmiss, finish_fst_created, finish_fst_errors]
    simp only [userExcelLoop]
    have hmain := userExcelLoop_matches_spec (df.columns.map (fun c => pyStrip (pyLower c)))
      df.rows 0 { db := db, created := 0, errors := [] }
      (db.map LibraryUser.registration_number, db.map LibraryUser.email)
      (keyInvInit LibraryUser.registration_number db) (keyInvInit LibraryUser.email db)
    constructor
    · rw [hmain.1]
      simp
    · rw [hmain.2]
      simp

/-- C1 witness: a Book text file with one committed row, a blank line, a
wrong-field-count line and a duplicate-ISBN line: one pass, two fails,
the blank line counting for neither. -/
theorem C1_created_and_errors_count_rows_check :
    pySplit '\n' (pyStrip
        "title|author|isbn|publisher|publication_year|category|quantity\nA|B|111|P|1999|F|2\n\nbad|row\nC|D|111|Q|2000|G|1")
      = "title|author|isbn|publisher|publication_year|category|quantity" ::
        ["A|B|111|P|1999|F|2", "", "bad|row", "C|D|111|Q|2000|G|1"] ∧
    (["A|B|111|P|1999|F|2", "", "bad|row", "C|D|111|Q|2000|G|1"] : List String) ≠ [] ∧
    pySplit '|' (pyStrip "title|author|isbn|publisher|publication_year|category|quantity")
      = bookExpectedFields ∧
    (bookProcessTxt
        "title|author|isbn|publisher|publication_year|category|quantity\nA|B|111|P|1999|F|2\n\nbad|row\nC|D|111|Q|2000|G|1"
        []).1.created = 1 ∧
    (bookProcessTxt
        "title|author|isbn|publisher|publication_year|category|quantity\nA|B|111|P|1999|F|2\n\nbad|row\nC|D|111|Q|2000|G|1"
        []).1.errors.length = 2 ∧
    (bookProcessTxt
        "title|author|isbn|publisher|publication_year|category|quantity\nA|B|111|P|1999|F|2\n\nbad|row\nC|D|111|Q|2000|G|1"
        []).1.created =
      (specCounts specBookTxtClass pushKey (([] : List Book).map Book.isbn)
        ["A|B|111|P|1999|F|2", "", "bad|row", "C|D|111|Q|2000|G|1"]).1 := by
  refine ⟨by decide, by decide, by decide, by decide, by decide, ?_⟩
  exact ((C1_created_and_errors_count_rows.1
    "title|author|isbn|publisher|publication_year|category|quantity\nA|B|111|P|1999|F|2\n\nbad|row\nC|D|111|Q|2000|G|1"
    [] "title|author|isbn|publisher|publication_year|category|quantity"
    ["A|B|111|P|1999|F|2", "", "bad|row", "C|D|111|Q|2000|G|1"]
    (by decide) (by decide) (by decide)).1)

end CoopLivros
